import Mathlib

/-!
# go-kong: plugin config normalisation, envelopes and resource services

A shallow embedding of `kong/plugins.go` and `kong/certificates.go`.

* Go values seen through `reflect` are the trees of `GoVal`; a `reflect.Value`
  is a `Value` (the invalid zero Value, or a Go value with its addressable flag).
  A panic is the result `none`.
* `map[string]interface{}` is an association list with unique keys (`GoMap`).
* JSON documents are the trees of `JSON`; the encoders and decoders follow the
  `json:"..."` tags of the struct declarations.
* `NewRequest`, `Do` and `addOptions` live in a file that is not part of the
  sources; the services take them as the fields of a `Client`.

Go strings are Unicode text, except the cursor fields of the envelopes, which are
byte strings (`GoString`): encoding/json rewrites bytes that are not valid UTF-8.
Floating point and complex kinds and cyclic pointer structures are outside the model.
-/

namespace Kong

/-! ## Go values and reflection -/

/-- Counterpart of reflect.StructField: the Go name of a field, its struct tag as
key/value pairs, and whether the field is exported (its PkgPath is empty). -/
structure StructField where
  Name : String
  Tag : List (String × String)
  exported : Bool
deriving Repr, DecidableEq

/-- Counterpart of StructTag.Get: the value stored under `key`, or the empty string. -/
def StructField.Get (f : StructField) (key : String) : String :=
  (f.Tag.lookup key).getD ""

/-- Go values by kind. `nilIface` also stands for the nil `interface{}`; every other
value, used as an `interface{}`, is an interface holding that value. -/
inductive GoVal where
  | bool (b : Bool)
  | int (n : Int)
  | str (s : String)
  | chan (isNil : Bool)
  | func (isNil : Bool)
  | nilMap
  | map (entries : List (GoVal × GoVal))
  | nilSlice
  | slice (elems : List GoVal)
  | array (elems : List GoVal)
  | struct (fields : List (StructField × GoVal))
  | nilPtr
  | ptr (target : GoVal)
  | nilIface
  | iface (dyn : GoVal)
deriving Repr

/-- Counterpart of reflect.Value: `invalid` is the zero Value (Kind Invalid); otherwise
the Go value together with its addressable flag. Values handled here are never
read-only: they start at reflect.ValueOf and are reached through settable fields,
array elements and pointer indirection only. -/
inductive Value where
  | invalid
  | mk (v : GoVal) (addr : Bool)
deriving Repr

/-- Counterpart of reflect.ValueOf on an `interface{}`: the nil interface gives the zero
Value, anything else a Value that is not addressable. -/
def ValueOf : GoVal → Value
  | .nilIface => .invalid
  | v => .mk v false

/-- Counterpart of Value.Interface: a value of Interface kind yields what it holds. -/
def Interface : GoVal → GoVal
  | .iface d => d
  | v => v

/-- Counterpart of Value.CanSet for `v.Field(i)`: the struct is addressable and the
field is exported. -/
def CanSet (addr : Bool) (f : StructField) : Bool :=
  addr && f.exported

mutual
/-- Body of `isZero` on a valid Value `v` with addressable flag `addr`, by `v.Kind()`. -/
def isZeroVal (addr : Bool) : GoVal → Option Bool
  -- case reflect.Func, reflect.Map, reflect.Slice: return v.IsNil()
  | .func isNil => some isNil
  | .nilMap => some true
  | .map _ => some false
  | .nilSlice => some true
  | .slice _ => some false
  -- case reflect.Array
  | .array elems => isZeroArray addr true elems
  -- case reflect.Struct
  | .struct fields => isZeroStruct addr true fields
  -- case reflect.Ptr: return isZero(reflect.Indirect(v)); Indirect of a nil pointer is
  -- the zero Value, on which v.Type() panics
  | .nilPtr => none
  | .ptr target => isZeroVal true target
  -- other kinds: v.Interface() == reflect.Zero(v.Type()).Interface()
  | .bool b => some (b == false)
  | .int n => some (n == 0)
  | .str s => some (s == "")
  | .chan isNil => some isNil
  | .nilIface => some true
  | .iface _ => some false
/-- The array loop `z = z && isZero(v.Index(i))`, from the current `z`. -/
def isZeroArray (addr : Bool) (z : Bool) : List GoVal → Option Bool
  | [] => some z
  | e :: rest =>
    if z then
      match isZeroVal addr e with
      | none => none
      | some r => isZeroArray addr r rest
    else isZeroArray addr false rest
/-- The struct loop `if v.Field(i).CanSet() { z = z && isZero(v.Field(i)) }`. -/
def isZeroStruct (addr : Bool) (z : Bool) : List (StructField × GoVal) → Option Bool
  | [] => some z
  | (f, e) :: rest =>
    if CanSet addr f then
      if z then
        match isZeroVal addr e with
        | none => none
        | some r => isZeroStruct addr r rest
      else isZeroStruct addr false rest
    else isZeroStruct addr z rest
end

/-- The function `isZero(v reflect.Value) bool`; `none` is a panic. -/
def isZero : Value → Option Bool
  | .invalid => none
  | .mk v addr => isZeroVal addr v

/-! ## Maps and strings -/

/-- A `map[string]interface{}` as an association list with unique keys. -/
abbrev GoMap := List (String × GoVal)

/-- Map assignment `m[k] = v`. -/
def GoMap.set : GoMap → String → GoVal → GoMap
  | [], k, v => [(k, v)]
  | (k', v') :: rest, k, v =>
    if k' = k then (k, v) :: rest else (k', v') :: GoMap.set rest k v

/-- Map lookup `m[k]`. -/
def GoMap.get (m : GoMap) (k : String) : Option GoVal :=
  m.lookup k

/-- Splitting a character list at every occurrence of `sep`. -/
def splitChars (sep : Char) : List Char → List (List Char)
  | [] => [[]]
  | c :: cs =>
    if c = sep then [] :: splitChars sep cs
    else
      match splitChars sep cs with
      | [] => [[c]]
      | h :: t => (c :: h) :: t

/-- Counterpart of strings.Split for a one-character separator. -/
def Split (s : String) (sep : Char) : List String :=
  (splitChars sep s.data).map String.mk

/-- The name part of a json tag as the specification words it: the text before the
first comma. -/
def tagName (tag : String) : String :=
  String.mk (tag.data.takeWhile (fun c => c != ','))

/-- The wire key of a field as the specification words it: the name part of the json tag
when the field has a json tag, the Go name of the field when it has none. -/
def wireKey (f : StructField) : String :=
  match f.Tag.lookup "json" with
  | some tag => tagName tag
  | none => f.Name

/-! ## The generic plugin and the typed plugin configs -/

/-- The struct `Plugin`. -/
structure Plugin where
  ID : String
  Name : String
  CreatedAt : Int
  Enabled : Bool
  ApiID : String
  ConsumerID : String
  Config : GoMap
deriving Repr

/-! ### The part of `github.com/fatih/structs` used by `ToPlugin` -/

/-- Counterpart of structs.New: pointers are followed; anything but a struct panics. -/
def strctVal : GoVal → Option (List (StructField × GoVal))
  | .ptr t => strctVal t
  | .struct fields => some fields
  | _ => none

/-- Counterpart of Struct.Names (through getFields): the names of the fields that are
not tagged `structs:"-"`, in declaration order; unexported fields are listed too. -/
def Names (s : List (StructField × GoVal)) : List String :=
  (s.filter (fun x => x.1.Get "structs" != "-")).map (fun x => x.1.Name)

/-- Counterpart of Struct.Field: the field called `name` (a panic when there is none). -/
def Field (s : List (StructField × GoVal)) (name : String) : Option (StructField × GoVal) :=
  s.find? (fun x => x.1.Name == name)

/-- Counterpart of Field.Value, that is `f.value.Interface()`: a panic on a field that
is not exported. -/
def Field.Value (x : StructField × GoVal) : Option GoVal :=
  if x.1.exported then some (Interface x.2) else none

/-- One pass of the loop body of `ToPlugin` for the field name `v`. -/
def ToPlugin.step (s : List (StructField × GoVal)) (config : GoMap) (v : String) :
    Option GoMap :=
  match Field s v with
  | none => none
  | some x =>
    -- tags := strings.Split(s.Field(v).Tag("json"), ",")
    let tags := Split (x.1.Get "json") ','
    -- if ok := isZero(reflect.ValueOf(s.Field(v).Value())); !ok
    match Field.Value x with
    | none => none
    | some val =>
      match isZero (ValueOf val) with
      | none => none
      | some ok =>
        if !ok then
          -- config[tags[0]] = s.Field(v).Value()
          match tags with
          | [] => none
          | tag0 :: _ => some (config.set tag0 val)
        else some config

/-- The loop `for _, v := range fieldNames`. -/
def ToPlugin.loop (s : List (StructField × GoVal)) : List String → GoMap → Option GoMap
  | [], config => some config
  | v :: rest, config =>
    match ToPlugin.step s config v with
    | none => none
    | some config' => ToPlugin.loop s rest config'

/-- Body of `func (c *ACLPlugin) ToPlugin() *Plugin`, with `c.Plugin` and `c.Config`
as arguments: the body reaches the config through reflection only. -/
def ToPlugin (plugin : Plugin) (Config : GoVal) : Option Plugin :=
  match strctVal Config with
  | none => none
  | some s =>
    match ToPlugin.loop s (Names s) [] with
    | none => none
    | some config => some { plugin with Config := config }

/-- A `[]string`: nil, or a slice with the given elements. -/
def stringSlice : Option (List String) → GoVal
  | none => .nilSlice
  | some l => .slice (l.map GoVal.str)

/-- An exported field with the given Go name and json tag. -/
def jsonField (name tag : String) : StructField :=
  { Name := name, Tag := [("json", tag)], exported := true }

/-- The struct `ACLConfig`. -/
structure ACLConfig where
  Whitelist : Option (List String)
  Blacklist : Option (List String)
deriving Repr

/-- The struct `RequestSizeLimitingConfig`. -/
structure RequestSizeLimitingConfig where
  AllowedPayloadSize : Int
deriving Repr

/-- The struct `CorrelationIDConfig`. -/
structure CorrelationIDConfig where
  HeaderName : String
  Generator : String
  EchoDownstream : Bool
deriving Repr

/-- The struct `RateLimitingConfig`. -/
structure RateLimitingConfig where
  Second : Int
  Minute : Int
  Hour : Int
  Day : Int
  Month : Int
  Year : Int
  LimitBy : String
  Policy : String
  FaultTolerant : Bool
  RedisHost : String
  RedisPort : String
  RedisPassword : String
  RedisTimeout : Int
deriving Repr

/-- The struct `JWTConfig`. -/
structure JWTConfig where
  URIParamNames : Option (List String)
  ClaimsToVerify : Option (List String)
  KeyClaimName : String
  SecretIsBase64 : Bool
deriving Repr

/-- The struct `FileLogConfig`. -/
structure FileLogConfig where
  Path : String
deriving Repr

/-- The struct `KeyAuthenticationConfig`. -/
structure KeyAuthenticationConfig where
  KeyNames : Option (List String)
  HideCredentials : Bool
deriving Repr

/-- Fields of `ACLConfig` as reflection sees them. -/
def ACLConfig.fields (c : ACLConfig) : List (StructField × GoVal) :=
  [ (jsonField "Whitelist" "whitelist,omitempty", stringSlice c.Whitelist),
    (jsonField "Blacklist" "blacklist,omitempty", stringSlice c.Blacklist) ]

/-- Fields of `RequestSizeLimitingConfig` as reflection sees them. -/
def RequestSizeLimitingConfig.fields (c : RequestSizeLimitingConfig) :
    List (StructField × GoVal) :=
  [ (jsonField "AllowedPayloadSize" "allowed_payload_size,omitempty", .int c.AllowedPayloadSize) ]

/-- Fields of `CorrelationIDConfig` as reflection sees them. -/
def CorrelationIDConfig.fields (c : CorrelationIDConfig) : List (StructField × GoVal) :=
  [ (jsonField "HeaderName" "header_name,omitempty", .str c.HeaderName),
    (jsonField "Generator" "generator,omitempty", .str c.Generator),
    (jsonField "EchoDownstream" "echo_downstream,omitempty", .bool c.EchoDownstream) ]

/-- Fields of `RateLimitingConfig` as reflection sees them. -/
def RateLimitingConfig.fields (c : RateLimitingConfig) : List (StructField × GoVal) :=
  [ (jsonField "Second" "second,omitempty", .int c.Second),
    (jsonField "Minute" "minute,omitempty", .int c.Minute),
    (jsonField "Hour" "hour,omitempty", .int c.Hour),
    (jsonField "Day" "day, omitempty", .int c.Day),
    (jsonField "Month" "month,omitempty", .int c.Month),
    (jsonField "Year" "year, omitempty", .int c.Year),
    (jsonField "LimitBy" "limit_by,omitempty", .str c.LimitBy),
    (jsonField "Policy" "policy,omitempty", .str c.Policy),
    (jsonField "FaultTolerant" "fault_tolerant,omitempty", .bool c.FaultTolerant),
    (jsonField "RedisHost" "redis_host,omitempty", .str c.RedisHost),
    (jsonField "RedisPort" "redis_port,omitempty", .str c.RedisPort),
    (jsonField "RedisPassword" "redis_password,omitempty", .str c.RedisPassword),
    (jsonField "RedisTimeout" "redis_timeout,omitempty", .int c.RedisTimeout) ]

/-- Fields of `JWTConfig` as reflection sees them. -/
def JWTConfig.fields (c : JWTConfig) : List (StructField × GoVal) :=
  [ (jsonField "URIParamNames" "uri_param_names,omitempty", stringSlice c.URIParamNames),
    (jsonField "ClaimsToVerify" "claims_to_verify,omitempty", stringSlice c.ClaimsToVerify),
    (jsonField "KeyClaimName" "key_claim_name,omitempty", .str c.KeyClaimName),
    (jsonField "SecretIsBase64" "secret_is_base64,omitempty", .bool c.SecretIsBase64) ]

/-- Fields of `FileLogConfig` as reflection sees them. -/
def FileLogConfig.fields (c : FileLogConfig) : List (StructField × GoVal) :=
  [ (jsonField "Path" "path,omitempty", .str c.Path) ]

/-- Fields of `KeyAuthenticationConfig` as reflection sees them. -/
def KeyAuthenticationConfig.fields (c : KeyAuthenticationConfig) :
    List (StructField × GoVal) :=
  [ (jsonField "KeyNames" "key_names,omitempty", stringSlice c.KeyNames),
    (jsonField "HideCredentials" "hide_credentials,omitempty", .bool c.HideCredentials) ]

/-- The struct `ACLPlugin`: the embedded Plugin and `Config *ACLConfig`. -/
structure ACLPlugin where
  Plugin : Plugin
  Config : Option ACLConfig
deriving Repr

/-- The method `func (c *ACLPlugin) ToPlugin() *Plugin`. -/
def ACLPlugin.ToPlugin (c : ACLPlugin) : Option Kong.Plugin :=
  Kong.ToPlugin c.Plugin
    (match c.Config with
     | none => .nilPtr
     | some cfg => .ptr (.struct cfg.fields))

/-- The typed plugin variants: each embeds a Plugin and declares a typed Config, a
pointer for ACL and a struct value for the others. -/
inductive TypedPlugin where
  | acl (p : Plugin) (c : Option ACLConfig)
  | requestSizeLimiting (p : Plugin) (c : RequestSizeLimitingConfig)
  | correlationID (p : Plugin) (c : CorrelationIDConfig)
  | rateLimiting (p : Plugin) (c : RateLimitingConfig)
  | jwt (p : Plugin) (c : JWTConfig)
  | fileLog (p : Plugin) (c : FileLogConfig)
  | keyAuthentication (p : Plugin) (c : KeyAuthenticationConfig)
deriving Repr

/-- The embedded generic Plugin of a typed plugin. -/
def TypedPlugin.Plugin : TypedPlugin → Plugin
  | .acl p _ | .requestSizeLimiting p _ | .correlationID p _ | .rateLimiting p _
  | .jwt p _ | .fileLog p _ | .keyAuthentication p _ => p

/-- The Config of a typed plugin as the Go value handed to structs.New. -/
def TypedPlugin.Config : TypedPlugin → GoVal
  | .acl _ none => .nilPtr
  | .acl _ (some c) => .ptr (.struct c.fields)
  | .requestSizeLimiting _ c => .struct c.fields
  | .correlationID _ c => .struct c.fields
  | .rateLimiting _ c => .struct c.fields
  | .jwt _ c => .struct c.fields
  | .fileLog _ c => .struct c.fields
  | .keyAuthentication _ c => .struct c.fields

/-- The fields of the config struct of a typed plugin (none behind a nil pointer). -/
def TypedPlugin.configFields : TypedPlugin → List (StructField × GoVal)
  | .acl _ none => []
  | .acl _ (some c) => c.fields
  | .requestSizeLimiting _ c => c.fields
  | .correlationID _ c => c.fields
  | .rateLimiting _ c => c.fields
  | .jwt _ c => c.fields
  | .fileLog _ c => c.fields
  | .keyAuthentication _ c => c.fields

/-- The Config of a typed plugin is a config struct, not a nil pointer. -/
def TypedPlugin.configNonNil : TypedPlugin → Bool
  | .acl _ none => false
  | _ => true

/-- The body of `ToPlugin` run on a typed plugin. -/
def TypedPlugin.ToPlugin (c : TypedPlugin) : Option Kong.Plugin :=
  Kong.ToPlugin c.Plugin c.Config

/-! ### The flattening as the specification words it -/

/-- The entry the specification asks for a field: none when the field is zero, else the
name part of its json tag with its value. -/
def specEntry (x : StructField × GoVal) : Option (String × GoVal) :=
  if isZero (ValueOf (Interface x.2)) = some false then
    some (tagName (x.1.Get "json"), Interface x.2)
  else none

/-- A struct is regular for `ToPlugin` when its field names are pairwise distinct, so
are the name parts of its json tags, and every field is exported, not hidden from
structs, and classified by `isZero` without a panic. -/
def Regular (s : List (StructField × GoVal)) : Prop :=
  (s.map (fun x => x.1.Name)).Nodup ∧
  (s.map (fun x => tagName (x.1.Get "json"))).Nodup ∧
  ∀ x ∈ s, x.1.Get "structs" ≠ "-" ∧ x.1.exported = true ∧
    isZero (ValueOf (Interface x.2)) ≠ none


/-! ## JSON documents and the tagged structs -/

/-- JSON documents. Numbers are integer literals; other number literals are outside the
model. -/
inductive JSON where
  | null
  | bool (b : Bool)
  | num (n : Int)
  | str (s : String)
  | arr (items : List JSON)
  | obj (members : List (String × JSON))
deriving Repr

/-! ### Go strings as bytes, JSON strings as text -/

/-- A Go string: a sequence of bytes, valid UTF-8 or not. -/
abbrev GoString := List (Fin 256)

/-- The rune utf8.RuneError, U+FFFD. -/
def RuneError : Nat := 0xFFFD

/-- Lowest second byte utf8 accepts after the first byte `s0` (the acceptRanges table). -/
def acceptLo (s0 : Nat) : Nat :=
  if s0 = 0xE0 then 0xA0 else if s0 = 0xF0 then 0x90 else 0x80

/-- Highest second byte utf8 accepts after the first byte `s0` (the acceptRanges table). -/
def acceptHi (s0 : Nat) : Nat :=
  if s0 = 0xED then 0x9F else if s0 = 0xF4 then 0x8F else 0xBF

/-- Counterpart of utf8.DecodeRuneInString: the first rune of the bytes and its width; a
first byte that starts no valid encoding gives RuneError with width 1. The masks and
shifts of the library are written with subtraction and multiplication. -/
def decodeRune : List Nat → Nat × Nat
  | [] => (RuneError, 0)
  | s0 :: rest =>
    if s0 < 0x80 then (s0, 1)
    else if s0 < 0xC2 ∨ 0xF4 < s0 then (RuneError, 1)
    else if s0 < 0xE0 then
      match rest with
      | s1 :: _ =>
        if 0x80 ≤ s1 ∧ s1 ≤ 0xBF then ((s0 - 0xC0) * 64 + (s1 - 0x80), 2)
        else (RuneError, 1)
      | _ => (RuneError, 1)
    else if s0 < 0xF0 then
      match rest with
      | s1 :: s2 :: _ =>
        if acceptLo s0 ≤ s1 ∧ s1 ≤ acceptHi s0 ∧ 0x80 ≤ s2 ∧ s2 ≤ 0xBF then
          ((s0 - 0xE0) * 4096 + (s1 - 0x80) * 64 + (s2 - 0x80), 3)
        else (RuneError, 1)
      | _ => (RuneError, 1)
    else
      match rest with
      | s1 :: s2 :: s3 :: _ =>
        if acceptLo s0 ≤ s1 ∧ s1 ≤ acceptHi s0 ∧ 0x80 ≤ s2 ∧ s2 ≤ 0xBF ∧
            0x80 ≤ s3 ∧ s3 ≤ 0xBF then
          ((s0 - 0xF0) * 262144 + (s1 - 0x80) * 4096 + (s2 - 0x80) * 64 + (s3 - 0x80), 4)
        else (RuneError, 1)
      | _ => (RuneError, 1)

/-- The loop of the JSON string encoder over the bytes that are left, `fuel` passes at
most: each pass reads one rune and moves on by its width. -/
def decodeRunesFrom : Nat → List Nat → List Nat
  | 0, _ => []
  | fuel + 1, s =>
    match s with
    | [] => []
    | _ :: _ => (decodeRune s).1 :: decodeRunesFrom fuel (s.drop (decodeRune s).2)

/-- The runes the JSON string encoder reads off a Go string; every pass consumes a byte
at least, so as many passes as bytes suffice. -/
def decodeRunes (s : List Nat) : List Nat :=
  decodeRunesFrom s.length s

/-- Counterpart of utf8.AppendRune for a rune that is a Unicode scalar value. -/
def encodeRune (r : Nat) : List Nat :=
  if r < 0x80 then [r]
  else if r < 0x800 then [0xC0 + r / 64, 0x80 + r % 64]
  else if r < 0x10000 then [0xE0 + r / 4096, 0x80 + r / 64 % 64, 0x80 + r % 64]
  else [0xF0 + r / 262144, 0x80 + r / 4096 % 64, 0x80 + r / 64 % 64, 0x80 + r % 64]

/-- The text json.Marshal writes for a Go string: its runes, with U+FFFD in place of
every byte that is not part of valid UTF-8. -/
def jsonText (s : GoString) : String :=
  String.mk ((decodeRunes (s.map Fin.val)).map Char.ofNat)

/-- The Go string json.Unmarshal stores for a JSON string: the UTF-8 encoding of its
text. -/
def goBytes (t : String) : GoString :=
  t.data.flatMap (fun c => (encodeRune c.toNat).map (Fin.ofNat))

/-- A struct field tagged `json:"key,omitempty"`: left out of the object when its value
is empty (false, 0, the empty string, an empty or nil slice or map). -/
def omitempty (empty : Bool) (key : String) (val : JSON) : List (String × JSON) :=
  if empty then [] else [(key, val)]

/-- The keys of a JSON object, in order (none for any other document). -/
def JSON.keys : JSON → List String
  | .obj members => members.map Prod.fst
  | _ => []

/-- Go `int` is taken to be 64 bits wide. -/
def inIntRange (n : Int) : Bool :=
  decide (-(2 : Int) ^ 63 ≤ n) && decide (n < (2 : Int) ^ 63)

/-- Case folding of one character as encoding/json matches keys against ASCII field
names: the ASCII letters, and the two characters outside ASCII that fold to an ASCII
letter, the Kelvin sign U+212A (to k) and the long s U+017F (to s). -/
def foldChar (c : Char) : Char :=
  if c = Char.ofNat 0x212A then 'k'
  else if c = Char.ofNat 0x017F then 's'
  else c.toLower

/-- Case folding of a key. -/
def foldKey (s : String) : String :=
  String.mk (s.data.map foldChar)

/-- The struct field encoding/json decodes an object key into: the first field whose json
name equals the key, else the first whose name equals it ignoring case. -/
def fieldIndex (names : List String) (key : String) : Option Nat :=
  match names.findIdx? (fun n => n == key) with
  | some i => some i
  | none => names.findIdx? (fun n => foldKey n == foldKey key)

/-- Decoding a JSON value into an `int` field holding `old`. -/
def decodeInt (j : JSON) (old : Int) : Option Int :=
  match j with
  | .null => some old
  | .num n => if inIntRange n then some n else none
  | _ => none

/-- Decoding a JSON value into a `string` field holding `old`: the field receives the
UTF-8 encoding of the JSON text. -/
def decodeString (j : JSON) (old : GoString) : Option GoString :=
  match j with
  | .null => some old
  | .str s => some (goBytes s)
  | _ => none

/-- Decoding the elements of a JSON array in order; the first failure fails the whole. -/
def decodeItems {α : Type} (decodeItem : JSON → Option α) : List JSON → Option (List α)
  | [] => some []
  | j :: rest =>
    match decodeItem j with
    | none => none
    | some x =>
      match decodeItems decodeItem rest with
      | none => none
      | some xs => some (x :: xs)

/-- Decoding a JSON value into a slice field of a fresh struct: null gives the nil slice,
an array the slice of its decoded elements. -/
def decodeSlice {α : Type} (decodeItem : JSON → Option α) (j : JSON) :
    Option (Option (List α)) :=
  match j with
  | .null => some none
  | .arr items =>
    match decodeItems decodeItem items with
    | none => none
    | some xs => some (some xs)
  | _ => none

/-- Encoding the elements of a slice in order; the first failure fails the whole. -/
def encodeItems {α : Type} (encodeItem : α → Option JSON) : List α → Option (List JSON)
  | [] => some []
  | x :: rest =>
    match encodeItem x with
    | none => none
    | some j =>
      match encodeItems encodeItem rest with
      | none => none
      | some js => some (j :: js)

/-- The zero value `new(Plugin)` points at. -/
def Plugin.zero : Plugin :=
  { ID := "", Name := "", CreatedAt := 0, Enabled := false, ApiID := "", ConsumerID := "",
    Config := [] }

/-- JSON encoding of a Plugin by its field tags, every one of them `omitempty`. The
encoder of the `map[string]interface{}` is the one of encoding/json, an argument here;
it is run only on a map that is not empty. -/
def Plugin.encode (encodeConfig : GoMap → Option JSON) (p : Plugin) : Option JSON :=
  let head :=
    omitempty (p.ID == "") "id" (.str p.ID) ++
    omitempty (p.Name == "") "name" (.str p.Name) ++
    omitempty (p.CreatedAt == 0) "created_at" (.num p.CreatedAt) ++
    omitempty (p.Enabled == false) "enabled" (.bool p.Enabled) ++
    omitempty (p.ApiID == "") "api_id" (.str p.ApiID) ++
    omitempty (p.ConsumerID == "") "consumer_id" (.str p.ConsumerID)
  if p.Config.isEmpty then some (.obj head)
  else
    match encodeConfig p.Config with
    | none => none
    | some cfg => some (.obj (head ++ [("config", cfg)]))

/-- The struct `Plugins`; `Data` is nil or a slice, `Next` a string of any bytes. -/
structure Plugins where
  Data : Option (List Plugin)
  Total : Int
  Next : GoString
deriving Repr

/-- The struct `Certificate`. -/
structure Certificate where
  ID : String
  Cert : String
  Key : String
  Snis : Option (List String)
  CreatedAt : Int
deriving Repr

/-- The struct `Certificates`; `Data` is nil or a slice of pointers (nil or a
Certificate), `Next` and `Offset` are strings of any bytes. -/
structure Certificates where
  Data : Option (List (Option Certificate))
  Total : Int
  Next : GoString
  Offset : GoString
deriving Repr

/-- The struct `CertificateRequest`. -/
structure CertificateRequest where
  Cert : String
  Key : String
  Snis : String
deriving Repr

/-- The struct `EnabledPlugins`. -/
structure EnabledPlugins where
  Plugins : Option (List String)
deriving Repr

/-- The struct `PluginsGetAllOptions`. -/
structure PluginsGetAllOptions where
  ID : String
  Name : String
  ApiID : String
  ConsumerID : String
  Size : Int
  Offset : String
deriving Repr

/-- The json names of the fields of `Plugins`, in declaration order: Data, Total, Next. -/
def Plugins.jsonNames : List String := ["consumer", "total", "next"]

/-- The json names of the fields of `Certificates`, in declaration order: Data, Total,
Next, Offset. -/
def Certificates.jsonNames : List String := ["data", "total", "next", "offset"]

/-- The zero value `new(Plugins)` points at. -/
def Plugins.zero : Plugins := { Data := none, Total := 0, Next := [] }

/-- The zero value `new(Certificates)` points at. -/
def Certificates.zero : Certificates := { Data := none, Total := 0, Next := [], Offset := [] }

/-- The zero value `new(Certificate)` points at. -/
def Certificate.zero : Certificate :=
  { ID := "", Cert := "", Key := "", Snis := none, CreatedAt := 0 }

/-- The zero value `new(EnabledPlugins)` points at. -/
def EnabledPlugins.zero : EnabledPlugins := { Plugins := none }

/-- JSON encoding of a Plugins envelope by its field tags. A string is written as the
text json.Marshal makes of its bytes. -/
def Plugins.encode (encodeItem : Plugin → Option JSON) (e : Plugins) : Option JSON :=
  let tail :=
    omitempty (e.Total == 0) "total" (.num e.Total) ++
    omitempty e.Next.isEmpty "next" (.str (jsonText e.Next))
  if (e.Data.getD []).isEmpty then some (.obj tail)
  else
    match encodeItems encodeItem (e.Data.getD []) with
    | none => none
    | some js => some (.obj (("consumer", .arr js) :: tail))

/-- JSON encoding of a Certificates envelope by its field tags. A string is written as
the text json.Marshal makes of its bytes. -/
def Certificates.encode (encodeItem : Option Certificate → Option JSON) (e : Certificates) :
    Option JSON :=
  let tail :=
    omitempty (e.Total == 0) "total" (.num e.Total) ++
    omitempty e.Next.isEmpty "next" (.str (jsonText e.Next)) ++
    omitempty e.Offset.isEmpty "offset" (.str (jsonText e.Offset))
  if (e.Data.getD []).isEmpty then some (.obj tail)
  else
    match encodeItems encodeItem (e.Data.getD []) with
    | none => none
    | some js => some (.obj (("data", .arr js) :: tail))

/-- Decoding one object member into a Plugins envelope; a key that matches no field is
skipped. -/
def Plugins.decodeMember (decodeItem : JSON → Option Plugin) (acc : Plugins)
    (m : String × JSON) : Option Plugins :=
  match fieldIndex Plugins.jsonNames m.1 with
  | some 0 => (decodeSlice decodeItem m.2).map (fun d => { acc with Data := d })
  | some 1 => (decodeInt m.2 acc.Total).map (fun t => { acc with Total := t })
  | some 2 => (decodeString m.2 acc.Next).map (fun n => { acc with Next := n })
  | _ => some acc

/-- Decoding the members of an object, in order, into a Plugins envelope. -/
def Plugins.decodeMembers (decodeItem : JSON → Option Plugin) :
    Plugins → List (String × JSON) → Option Plugins
  | acc, [] => some acc
  | acc, m :: rest =>
    match Plugins.decodeMember decodeItem acc m with
    | none => none
    | some acc' => Plugins.decodeMembers decodeItem acc' rest

/-- JSON decoding into a fresh Plugins envelope; `none` is a decoding error. -/
def Plugins.decode (decodeItem : JSON → Option Plugin) : JSON → Option Plugins
  | .obj members => Plugins.decodeMembers decodeItem Plugins.zero members
  | .null => some Plugins.zero
  | _ => none

/-- Decoding one object member into a Certificates envelope; a key that matches no field
is skipped. -/
def Certificates.decodeMember (decodeItem : JSON → Option (Option Certificate))
    (acc : Certificates) (m : String × JSON) : Option Certificates :=
  match fieldIndex Certificates.jsonNames m.1 with
  | some 0 => (decodeSlice decodeItem m.2).map (fun d => { acc with Data := d })
  | some 1 => (decodeInt m.2 acc.Total).map (fun t => { acc with Total := t })
  | some 2 => (decodeString m.2 acc.Next).map (fun n => { acc with Next := n })
  | some 3 => (decodeString m.2 acc.Offset).map (fun o => { acc with Offset := o })
  | _ => some acc

/-- Decoding the members of an object, in order, into a Certificates envelope. -/
def Certificates.decodeMembers (decodeItem : JSON → Option (Option Certificate)) :
    Certificates → List (String × JSON) → Option Certificates
  | acc, [] => some acc
  | acc, m :: rest =>
    match Certificates.decodeMember decodeItem acc m with
    | none => none
    | some acc' => Certificates.decodeMembers decodeItem acc' rest

/-- JSON decoding into a fresh Certificates envelope; `none` is a decoding error. -/
def Certificates.decode (decodeItem : JSON → Option (Option Certificate)) :
    JSON → Option Certificates
  | .obj members => Certificates.decodeMembers decodeItem Certificates.zero members
  | .null => some Certificates.zero
  | _ => none

/-- A list response of the gateway: the items under data, with total and next. -/
def listResponse (items : List JSON) (total : Int) (next : String) : JSON :=
  .obj [("data", .arr items), ("total", .num total), ("next", .str next)]

/-! ## The resource services over the request pipeline -/

/-- The values the services hand to NewRequest as `body interface{}`: a `*Plugin` or a
`*CertificateRequest`, each possibly a nil pointer. The nil interface is `none` of
`Option Body`. -/
inductive Body where
  | plugin (p : Option Plugin)
  | certificate (c : Option CertificateRequest)
deriving Repr

/-- Modelled from the spec: the request payload NewRequest builds (kong.go, which
declares NewRequest, is not among the sources). A body, if present, is encoded as a JSON
request payload; the outer `none` is an encoding error, the inner `none` a request
without payload. A nil pointer encodes as null. -/
def requestPayload (encodeConfig : GoMap → Option JSON) : Option Body → Option (Option JSON)
  | none => some none
  | some (.plugin none) => some (some .null)
  | some (.plugin (some p)) => (Plugin.encode encodeConfig p).map some
  | some (.certificate none) => some (some .null)
  | some (.certificate (some c)) =>
    some (some (.obj (
      omitempty (c.Cert == "") "cert" (.str c.Cert) ++
      omitempty (c.Key == "") "key" (.str c.Key) ++
      omitempty (c.Snis == "") "snis" (.str c.Snis))))

/-- The kinds of destination the read operations hand to Do as `v interface{}`. -/
inductive DestKind where
  | plugin
  | enabledPlugins
  | plugins
  | schema
  | certificate
  | certificates
deriving Repr, DecidableEq

/-- The Go type behind each kind of destination. -/
@[reducible] def DestKind.type : DestKind → Type
  | .plugin => Plugin
  | .enabledPlugins => EnabledPlugins
  | .plugins => Plugins
  | .schema => GoMap
  | .certificate => Certificate
  | .certificates => Certificates

/-- The client behind `s.client`: addOptions, NewRequest and Do are declared outside the
sources and may behave in any way. A Go `error` is an `Option Err` (`none` is nil), a
`*http.Request` an `Option Req`, a `*http.Response` an `Option Resp`. `DoInto k req v`
is `Do(req, v)` for a destination of kind `k` that holds `v`: it yields what the
destination holds afterwards, the response and the error. `DoNil req` is `Do(req, nil)`. -/
structure Client (Req Resp Err : Type) where
  addOptions : String → Option PluginsGetAllOptions → String × Option Err
  NewRequest : String → String → Option Body → Option Req × Option Err
  DoInto : (k : DestKind) → Option Req → k.type → k.type × Option Resp × Option Err
  DoNil : Option Req → Option Resp × Option Err

/-- A call made on the client. -/
inductive Call (Req : Type) where
  | addOptions (s : String) (opt : Option PluginsGetAllOptions)
  | NewRequest (method urlStr : String) (body : Option Body)
  | Do (req : Option Req) (dest : Option DestKind)

/-- Whether a call is a call of Do. -/
def Call.isDo {Req : Type} : Call Req → Bool
  | .Do _ _ => true
  | _ => false

/-- The requests built during a run: method, path and body of every NewRequest call. -/
def requests {Req : Type} (calls : List (Call Req)) : List (String × String × Option Body) :=
  calls.filterMap (fun c =>
    match c with
    | .NewRequest m u b => some (m, u, b)
    | _ => none)

/-- What a read operation returns (result, response, error), with the calls it made on
the client, in order. A nil result is `none`. -/
structure Outcome (α Req Resp Err : Type) where
  result : Option α
  resp : Option Resp
  err : Option Err
  calls : List (Call Req)

/-- What a write operation returns (response, error), with the calls it made. -/
structure Ack (Req Resp Err : Type) where
  resp : Option Resp
  err : Option Err
  calls : List (Call Req)

section Services

variable {Req Resp Err : Type}

/-- The call `addOptions(s, opt)`, entered in the record of calls. -/
def Client.callAddOptions (c : Client Req Resp Err) (calls : List (Call Req)) (s : String)
    (opt : Option PluginsGetAllOptions) : (String × Option Err) × List (Call Req) :=
  (c.addOptions s opt, calls ++ [.addOptions s opt])

/-- The call `s.client.NewRequest(method, urlStr, body)`, entered in the record of
calls. -/
def Client.callNewRequest (c : Client Req Resp Err) (calls : List (Call Req))
    (method urlStr : String) (body : Option Body) :
    (Option Req × Option Err) × List (Call Req) :=
  (c.NewRequest method urlStr body, calls ++ [.NewRequest method urlStr body])

/-- The call `s.client.Do(req, v)` with a destination of kind `k` holding `v`, entered
in the record of calls. -/
def Client.callDoInto (c : Client Req Resp Err) (calls : List (Call Req)) (k : DestKind)
    (req : Option Req) (v : k.type) : (k.type × Option Resp × Option Err) × List (Call Req) :=
  (c.DoInto k req v, calls ++ [.Do req (some k)])

/-- The call `s.client.Do(req, nil)`, entered in the record of calls. -/
def Client.callDoNil (c : Client Req Resp Err) (calls : List (Call Req))
    (req : Option Req) : (Option Resp × Option Err) × List (Call Req) :=
  (c.DoNil req, calls ++ [.Do req none])

/-- The method `PluginsService.Get`. -/
def PluginsService.Get (s : Client Req Resp Err) (id : String) :
    Outcome Plugin Req Resp Err :=
  let u := "plugins/" ++ id
  let nr := s.callNewRequest [] "GET" u none
  if nr.1.2.isSome then
    { result := none, resp := none, err := nr.1.2, calls := nr.2 }
  else
    let d := s.callDoInto nr.2 .plugin nr.1.1 Plugin.zero
    if d.1.2.2.isSome then
      { result := none, resp := d.1.2.1, err := d.1.2.2, calls := d.2 }
    else
      { result := some d.1.1, resp := d.1.2.1, err := d.1.2.2, calls := d.2 }

/-- The method `PluginsService.GetEnabled`. -/
def PluginsService.GetEnabled (s : Client Req Resp Err) :
    Outcome EnabledPlugins Req Resp Err :=
  let nr := s.callNewRequest [] "GET" "plugins/enabled" none
  if nr.1.2.isSome then
    { result := none, resp := none, err := nr.1.2, calls := nr.2 }
  else
    let d := s.callDoInto nr.2 .enabledPlugins nr.1.1 EnabledPlugins.zero
    if d.1.2.2.isSome then
      { result := none, resp := d.1.2.1, err := d.1.2.2, calls := d.2 }
    else
      { result := some d.1.1, resp := d.1.2.1, err := d.1.2.2, calls := d.2 }

/-- The method `PluginsService.Patch`; `none` is the panic of `plugin.ID` on a nil
plugin. -/
def PluginsService.Patch (s : Client Req Resp Err) (api : String) (plugin : Option Plugin) :
    Option (Ack Req Resp Err) :=
  match plugin with
  | none => none
  | some p =>
    let u := "apis/" ++ api ++ "/plugins/" ++ p.ID
    let nr := s.callNewRequest [] "PATCH" u (some (.plugin plugin))
    if nr.1.2.isSome then
      some { resp := none, err := nr.1.2, calls := nr.2 }
    else
      let d := s.callDoNil nr.2 nr.1.1
      some { resp := d.1.1, err := d.1.2, calls := d.2 }

/-- The method `PluginsService.Delete`. -/
def PluginsService.Delete (s : Client Req Resp Err) (api : String) (plugin : String) :
    Ack Req Resp Err :=
  let u := "apis/" ++ api ++ "/plugins/" ++ plugin
  let nr := s.callNewRequest [] "DELETE" u none
  if nr.1.2.isSome then
    { resp := none, err := nr.1.2, calls := nr.2 }
  else
    let d := s.callDoNil nr.2 nr.1.1
    if d.1.2.isSome then
      { resp := d.1.1, err := d.1.2, calls := d.2 }
    else
      { resp := d.1.1, err := d.1.2, calls := d.2 }

/-- The method `PluginsService.Post`. -/
def PluginsService.Post (s : Client Req Resp Err) (plugin : Option Plugin) :
    Ack Req Resp Err :=
  let nr := s.callNewRequest [] "POST" "plugins" (some (.plugin plugin))
  if nr.1.2.isSome then
    { resp := none, err := nr.1.2, calls := nr.2 }
  else
    let d := s.callDoNil nr.2 nr.1.1
    { resp := d.1.1, err := d.1.2, calls := d.2 }

/-- The method `PluginsService.GetAll`. -/
def PluginsService.GetAll (s : Client Req Resp Err) (opt : Option PluginsGetAllOptions) :
    Outcome Plugins Req Resp Err :=
  let ao := s.callAddOptions [] "plugins" opt
  if ao.1.2.isSome then
    { result := none, resp := none, err := ao.1.2, calls := ao.2 }
  else
    let nr := s.callNewRequest ao.2 "GET" ao.1.1 none
    if nr.1.2.isSome then
      { result := none, resp := none, err := nr.1.2, calls := nr.2 }
    else
      let d := s.callDoInto nr.2 .plugins nr.1.1 Plugins.zero
      if d.1.2.2.isSome then
        { result := none, resp := d.1.2.1, err := d.1.2.2, calls := d.2 }
      else
        { result := some d.1.1, resp := d.1.2.1, err := d.1.2.2, calls := d.2 }

/-- The method `PluginsService.GetSchema`; the destination is the map made by `make`. -/
def PluginsService.GetSchema (s : Client Req Resp Err) (name : String) :
    Outcome GoMap Req Resp Err :=
  let u := "plugins/schema/" ++ name
  let nr := s.callNewRequest [] "GET" u none
  if nr.1.2.isSome then
    { result := none, resp := none, err := nr.1.2, calls := nr.2 }
  else
    let d := s.callDoInto nr.2 .schema nr.1.1 []
    if d.1.2.2.isSome then
      { result := none, resp := d.1.2.1, err := d.1.2.2, calls := d.2 }
    else
      { result := some d.1.1, resp := d.1.2.1, err := d.1.2.2, calls := d.2 }

/-- The method `CertificatesService.Get`. -/
def CertificatesService.Get (s : Client Req Resp Err) (certificateID : String) :
    Outcome Certificate Req Resp Err :=
  let u := "certificates/" ++ certificateID
  let nr := s.callNewRequest [] "GET" u none
  if nr.1.2.isSome then
    { result := none, resp := none, err := nr.1.2, calls := nr.2 }
  else
    let d := s.callDoInto nr.2 .certificate nr.1.1 Certificate.zero
    if d.1.2.2.isSome then
      { result := none, resp := d.1.2.1, err := d.1.2.2, calls := d.2 }
    else
      { result := some d.1.1, resp := d.1.2.1, err := d.1.2.2, calls := d.2 }

/-- The method `CertificatesService.Patch`. -/
def CertificatesService.Patch (s : Client Req Resp Err)
    (certificate : Option CertificateRequest) (certificateID : String) : Ack Req Resp Err :=
  let u := "certificates/" ++ certificateID
  let nr := s.callNewRequest [] "PATCH" u (some (.certificate certificate))
  if nr.1.2.isSome then
    { resp := none, err := nr.1.2, calls := nr.2 }
  else
    let d := s.callDoNil nr.2 nr.1.1
    { resp := d.1.1, err := d.1.2, calls := d.2 }

/-- The method `CertificatesService.Delete`. -/
def CertificatesService.Delete (s : Client Req Resp Err) (certificateID : String) :
    Ack Req Resp Err :=
  let u := "certificates/" ++ certificateID
  let nr := s.callNewRequest [] "DELETE" u none
  if nr.1.2.isSome then
    { resp := none, err := nr.1.2, calls := nr.2 }
  else
    let d := s.callDoNil nr.2 nr.1.1
    if d.1.2.isSome then
      { resp := d.1.1, err := d.1.2, calls := d.2 }
    else
      { resp := d.1.1, err := d.1.2, calls := d.2 }

/-- The method `CertificatesService.Post`. -/
def CertificatesService.Post (s : Client Req Resp Err)
    (certificate : Option CertificateRequest) : Ack Req Resp Err :=
  let nr := s.callNewRequest [] "POST" "certificates" (some (.certificate certificate))
  if nr.1.2.isSome then
    { resp := none, err := nr.1.2, calls := nr.2 }
  else
    let d := s.callDoNil nr.2 nr.1.1
    { resp := d.1.1, err := d.1.2, calls := d.2 }

/-- The method `CertificatesService.GetAll`. -/
def CertificatesService.GetAll (s : Client Req Resp Err) :
    Outcome Certificates Req Resp Err :=
  let u := "certificates"
  let nr := s.callNewRequest [] "GET" u none
  if nr.1.2.isSome then
    { result := none, resp := none, err := nr.1.2, calls := nr.2 }
  else
    let d := s.callDoInto nr.2 .certificates nr.1.1 Certificates.zero
    if d.1.2.2.isSome then
      { result := none, resp := d.1.2.1, err := d.1.2.2, calls := d.2 }
    else
      { result := some d.1.1, resp := d.1.2.1, err := d.1.2.2, calls := d.2 }

/-- What the client answers to the request (method, path, body) run without
destination: the error of NewRequest with a nil response when the request cannot be
built, else the response and the error of Do on the request built. -/
def writeReply (s : Client Req Resp Err) (method urlStr : String) (body : Option Body) :
    Option Resp × Option Err :=
  if (s.NewRequest method urlStr body).2.isSome then
    (none, (s.NewRequest method urlStr body).2)
  else s.DoNil (s.NewRequest method urlStr body).1

/-- What the client answers to the request (method, path, no body) run with a
destination of kind `k` holding `v`: the error of NewRequest with a nil response when the
request cannot be built, else the response and the error of Do on the request built. -/
def readReply (s : Client Req Resp Err) (k : DestKind) (method urlStr : String)
    (v : k.type) : Option Resp × Option Err :=
  if (s.NewRequest method urlStr none).2.isSome then
    (none, (s.NewRequest method urlStr none).2)
  else (s.DoInto k (s.NewRequest method urlStr none).1 v).2

end Services

/-- The contract of a read operation in the words of the specification: a result is
returned exactly when the error is nil; a construction error comes back with a nil result
and a nil response and Do is never called; an error of Do comes back with a nil result
and the response of Do. -/
def ReadContract {α Req Resp Err : Type} (constructionErr : Option Err)
    (doResp : Option Resp) (doErr : Option Err) (r : Outcome α Req Resp Err) : Prop :=
  (r.result.isSome = true ↔ r.err = none) ∧
  (constructionErr ≠ none →
    r.result = none ∧ r.resp = none ∧ r.err = constructionErr ∧
      ∀ c ∈ r.calls, c.isDo = false) ∧
  (constructionErr = none → doErr ≠ none →
    r.result = none ∧ r.resp = doResp ∧ r.err = doErr)

/-! ## Sample values -/

/-- A client on which every call succeeds with status 200. -/
def okClient : Client Nat Nat String :=
  { addOptions := fun u _ => (u, none)
    NewRequest := fun _ _ _ => (some 0, none)
    DoInto := fun _ _ v => (v, some 200, none)
    DoNil := fun _ => (some 200, none) }

/-- A client on which NewRequest fails. -/
def noRequestClient : Client Nat Nat String :=
  { addOptions := fun u _ => (u, none)
    NewRequest := fun _ _ _ => (none, some "bad url")
    DoInto := fun _ _ v => (v, some 200, none)
    DoNil := fun _ => (some 200, none) }

/-- A client on which Do answers 404 with an error. -/
def notFoundClient : Client Nat Nat String :=
  { addOptions := fun u _ => (u, none)
    NewRequest := fun _ _ _ => (some 0, none)
    DoInto := fun _ _ v => (v, some 404, some "404 Not Found")
    DoNil := fun _ => (some 404, some "404 Not Found") }

/-- A plugin named acl, enabled, attached to the api api1. -/
def aclOnApi : Plugin :=
  { Plugin.zero with Name := "acl", Enabled := true, ApiID := "api1" }

/-- A plugin named acl that is not enabled. -/
def aclDisabled : Plugin :=
  { Plugin.zero with Name := "acl" }

/-- A Plugins envelope with Total = 2 and Next = cursor123, holding one zero plugin. -/
def twoPlugins : Plugins :=
  { Data := some [Plugin.zero], Total := 2, Next := goBytes "cursor123" }

/-- A Plugins envelope whose Next is the single byte 0xff, which is not valid UTF-8. -/
def badCursorPlugins : Plugins :=
  { Data := none, Total := 2, Next := [0xff] }

/-- A Certificates envelope whose Next is the single byte 0xff. -/
def badCursorCertificates : Certificates :=
  { Data := none, Total := 2, Next := [0xff], Offset := [] }

/-- A Certificates envelope with Total = 2 and Next = cursor123, holding one nil
certificate. -/
def twoCertificates : Certificates :=
  { Data := some [none], Total := 2, Next := goBytes "cursor123", Offset := [] }

/-! ## Lemmas on the embedding -/

theorem decodeRune_encodeRune (r : Nat) (hr : r < 0xD800 ∨ (0xDFFF < r ∧ r < 0x110000))
    (rest : List Nat) : decodeRune (encodeRune r ++ rest) = (r, (encodeRune r).length) := by
  unfold encodeRune
  by_cases h1 : r < 0x80
  · simp [h1, decodeRune]
  · by_cases h2 : r < 0x800
    · have a1 : ¬ (0xC0 + r / 64 < 0x80) := by omega
      have a2 : ¬ (0xC0 + r / 64 < 0xC2 ∨ 0xF4 < 0xC0 + r / 64) := by omega
      have a3 : 0xC0 + r / 64 < 0xE0 := by omega
      have a4 : 0x80 ≤ 0x80 + r % 64 ∧ 0x80 + r % 64 ≤ 0xBF := by omega
      have a5 : (0xC0 + r / 64 - 0xC0) * 64 + (0x80 + r % 64 - 0x80) = r := by omega
      simp only [h1, h2, if_false, if_true, List.cons_append, List.nil_append, decodeRune,
        a1, a2, a3, a4, a5, and_self, List.length_cons, List.length_nil]
    · by_cases h3 : r < 0x10000
      · have a1 : ¬ (0xE0 + r / 4096 < 0x80) := by omega
        have a2 : ¬ (0xE0 + r / 4096 < 0xC2 ∨ 0xF4 < 0xE0 + r / 4096) := by omega
        have a3 : ¬ (0xE0 + r / 4096 < 0xE0) := by omega
        have a3' : 0xE0 + r / 4096 < 0xF0 := by omega
        have a4 : acceptLo (0xE0 + r / 4096) ≤ 0x80 + r / 64 % 64 ∧
            0x80 + r / 64 % 64 ≤ acceptHi (0xE0 + r / 4096) ∧
            0x80 ≤ 0x80 + r % 64 ∧ 0x80 + r % 64 ≤ 0xBF := by
          unfold acceptLo acceptHi
          split_ifs <;> omega
        have a5 : (0xE0 + r / 4096 - 0xE0) * 4096 + (0x80 + r / 64 % 64 - 0x80) * 64 +
            (0x80 + r % 64 - 0x80) = r := by omega
        simp only [h1, h2, h3, if_false, if_true, List.cons_append, List.nil_append,
          decodeRune, a1, a2, a3, a3', a4, a5, and_self, List.length_cons, List.length_nil]
      · have a1 : ¬ (0xF0 + r / 262144 < 0x80) := by omega
        have a2 : ¬ (0xF0 + r / 262144 < 0xC2 ∨ 0xF4 < 0xF0 + r / 262144) := by omega
        have a3 : ¬ (0xF0 + r / 262144 < 0xE0) := by omega
        have a3' : ¬ (0xF0 + r / 262144 < 0xF0) := by omega
        have a4 : acceptLo (0xF0 + r / 262144) ≤ 0x80 + r / 4096 % 64 ∧
            0x80 + r / 4096 % 64 ≤ acceptHi (0xF0 + r / 262144) ∧
            0x80 ≤ 0x80 + r / 64 % 64 ∧ 0x80 + r / 64 % 64 ≤ 0xBF ∧
            0x80 ≤ 0x80 + r % 64 ∧ 0x80 + r % 64 ≤ 0xBF := by
          unfold acceptLo acceptHi
          split_ifs <;> omega
        have a5 : (0xF0 + r / 262144 - 0xF0) * 262144 + (0x80 + r / 4096 % 64 - 0x80) * 4096 +
            (0x80 + r / 64 % 64 - 0x80) * 64 + (0x80 + r % 64 - 0x80) = r := by omega
        simp only [h1, h2, h3, if_false, if_true, List.cons_append, List.nil_append,
          decodeRune, a1, a2, a3, a3', a4, a5, and_self, List.length_cons, List.length_nil]

theorem encodeRune_lt (r : Nat) (hr : r < 0x110000) : ∀ b ∈ encodeRune r, b < 256 := by
  intro b hb
  unfold encodeRune at hb
  split_ifs at hb <;> simp at hb <;> omega

theorem encodeRune_ne_nil (r : Nat) : encodeRune r ≠ [] := by
  unfold encodeRune
  split_ifs <;> simp

theorem toNat_scalar (c : Char) :
    c.toNat < 0xD800 ∨ (0xDFFF < c.toNat ∧ c.toNat < 0x110000) := by
  have := c.valid
  simpa [Char.toNat, UInt32.isValidChar, Nat.isValidChar] using this


theorem decodeRunesFrom_flatMap (cs : List Char) (fuel : Nat)
    (hfuel : (cs.flatMap (fun c => encodeRune c.toNat)).length ≤ fuel) :
    decodeRunesFrom fuel (cs.flatMap (fun c => encodeRune c.toNat)) = cs.map Char.toNat := by
  induction cs generalizing fuel with
  | nil => cases fuel <;> simp [decodeRunesFrom]
  | cons c cs ih =>
    simp only [List.flatMap_cons, List.length_append] at hfuel ⊢
    have hne := encodeRune_ne_nil c.toNat
    have hpos : 0 < (encodeRune c.toNat).length := List.length_pos.mpr hne
    cases fuel with
    | zero => omega
    | succ fuel =>
      obtain ⟨b, bs, hb⟩ := List.exists_cons_of_ne_nil hne
      have hdec := decodeRune_encodeRune c.toNat (toNat_scalar c)
        (cs.flatMap (fun c => encodeRune c.toNat))
      have hshape : encodeRune c.toNat ++ cs.flatMap (fun c => encodeRune c.toNat) =
          b :: (bs ++ cs.flatMap (fun c => encodeRune c.toNat)) := by
        rw [hb]
        rfl
      rw [hshape] at hdec ⊢
      simp only [decodeRunesFrom, hdec, List.map_cons]
      rw [← hshape, List.drop_left, ih fuel (by omega)]

theorem map_val_encodeRune (c : Char) :
    ((encodeRune c.toNat).map (Fin.ofNat : Nat → Fin 256)).map Fin.val = encodeRune c.toNat := by
  rw [List.map_map]
  have hlt : c.toNat < 0x110000 := by
    rcases toNat_scalar c with h | h <;> omega
  conv_rhs => rw [← List.map_id (encodeRune c.toNat)]
  apply List.map_congr_left
  intro b hb
  have := encodeRune_lt c.toNat hlt b hb
  simp [Fin.ofNat, Nat.mod_eq_of_lt this]

theorem map_val_goBytes (t : String) :
    (goBytes t).map Fin.val = t.data.flatMap (fun c => encodeRune c.toNat) := by
  unfold goBytes
  induction t.data with
  | nil => rfl
  | cons c cs ih => simp only [List.flatMap_cons, List.map_append, map_val_encodeRune, ih]

/-- A JSON text written into a Go string and read back by the JSON encoder is the same
text: valid UTF-8 passes through json.Marshal unchanged. -/
theorem jsonText_goBytes (t : String) : jsonText (goBytes t) = t := by
  unfold jsonText decodeRunes
  rw [map_val_goBytes, decodeRunesFrom_flatMap t.data _ (le_refl _), List.map_map]
  have : (Char.ofNat ∘ Char.toNat) = id := by
    funext c
    simp [Char.ofNat_toNat]
  rw [this, List.map_id]

theorem isZeroStruct_not_addr (z : Bool) (fields : List (StructField × GoVal)) :
    isZeroStruct false z fields = some z := by
  induction fields with
  | nil => simp [isZeroStruct]
  | cons x rest ih =>
    obtain ⟨f, e⟩ := x
    simp [isZeroStruct, CanSet, ih]

theorem isZeroStruct_false (addr : Bool) (fields : List (StructField × GoVal)) :
    isZeroStruct addr false fields = some false := by
  induction fields with
  | nil => simp [isZeroStruct]
  | cons x rest ih =>
    obtain ⟨f, e⟩ := x
    simp [isZeroStruct, ih]

theorem isZeroStruct_true_iff (addr : Bool) (fields : List (StructField × GoVal)) :
    isZeroStruct addr true fields = some true ↔
      ∀ x ∈ fields, CanSet addr x.1 = true → isZeroVal addr x.2 = some true := by
  induction fields with
  | nil => simp [isZeroStruct]
  | cons x rest ih =>
    obtain ⟨f, e⟩ := x
    by_cases hc : CanSet addr f = true
    · cases hz : isZeroVal addr e with
      | none => simp [isZeroStruct, hc, hz]
      | some r =>
        cases r with
        | true => simp [isZeroStruct, hc, hz, ih]
        | false => simp [isZeroStruct, hc, hz, isZeroStruct_false]
    · simp [isZeroStruct, hc, ih]

theorem splitChars_head (cs : List Char) :
    ∃ rest, splitChars ',' cs = cs.takeWhile (fun c => c != ',') :: rest := by
  induction cs with
  | nil => exact ⟨[], rfl⟩
  | cons c cs ih =>
    obtain ⟨rest, hrest⟩ := ih
    by_cases hc : c = ','
    · exact ⟨splitChars ',' cs, by simp [splitChars, hc]⟩
    · exact ⟨rest, by simp [splitChars, hc, hrest]⟩

theorem Split_head (tag : String) : ∃ rest, Split tag ',' = tagName tag :: rest := by
  obtain ⟨rest, hrest⟩ := splitChars_head tag.data
  exact ⟨rest.map String.mk, by simp [Split, tagName, hrest]⟩

theorem Field_of_mem (s : List (StructField × GoVal))
    (hnd : (s.map (fun x => x.1.Name)).Nodup) (x : StructField × GoVal) (hx : x ∈ s) :
    Field s x.1.Name = some x := by
  induction s with
  | nil => cases hx
  | cons y rest ih =>
    simp only [List.map_cons, List.nodup_cons] at hnd
    rcases List.mem_cons.mp hx with h | h
    · subst h
      simp [Field]
    · have hne : y.1.Name ≠ x.1.Name := by
        intro heq
        exact hnd.1 (heq ▸ List.mem_map_of_mem (fun x => x.1.Name) h)
      have := ih hnd.2 h
      simp only [Field] at this ⊢
      simp [List.find?_cons, hne, this]

theorem GoMap.set_of_not_mem (m : GoMap) (k : String) (v : GoVal)
    (h : k ∉ m.map Prod.fst) : GoMap.set m k v = m ++ [(k, v)] := by
  induction m with
  | nil => rfl
  | cons e rest ih =>
    obtain ⟨k', v'⟩ := e
    simp only [List.map_cons, List.mem_cons, not_or] at h
    have hne : ¬ k' = k := fun heq => h.1 heq.symm
    simp [GoMap.set, hne, ih h.2]


theorem step_of_field (s : List (StructField × GoVal)) (config : GoMap) (v : String)
    (x : StructField × GoVal) (hf : Field s v = some x) (he : x.1.exported = true)
    (ok : Bool) (hz : isZero (ValueOf (Interface x.2)) = some ok) :
    ToPlugin.step s config v =
      some (if ok then config else config.set (tagName (x.1.Get "json")) (Interface x.2)) := by
  obtain ⟨rest, hrest⟩ := Split_head (x.1.Get "json")
  cases ok <;> simp [ToPlugin.step, hf, Field.Value, he, hz, hrest]

theorem loop_of_fields (s : List (StructField × GoVal)) (l : List (StructField × GoVal))
    (hl : ∀ x ∈ l, Field s x.1.Name = some x ∧ x.1.exported = true ∧
      isZero (ValueOf (Interface x.2)) ≠ none) (config : GoMap) :
    ToPlugin.loop s (l.map (fun x => x.1.Name)) config =
      some ((l.filterMap specEntry).foldl (fun m e => GoMap.set m e.1 e.2) config) := by
  induction l generalizing config with
  | nil => rfl
  | cons x rest ih =>
    obtain ⟨hf, he, hz⟩ := hl x (List.mem_cons_self _ _)
    have hrest : ∀ y ∈ rest, Field s y.1.Name = some y ∧ y.1.exported = true ∧
        isZero (ValueOf (Interface y.2)) ≠ none :=
      fun y hy => hl y (List.mem_cons_of_mem _ hy)
    cases hok : isZero (ValueOf (Interface x.2)) with
    | none => exact absurd hok hz
    | some ok =>
      have hstep := step_of_field s config x.1.Name x hf he ok hok
      cases ok with
      | true =>
        simp only [List.map_cons, ToPlugin.loop, hstep, if_true]
        rw [ih hrest]
        simp [List.filterMap_cons, specEntry, hok]
      | false =>
        simp only [List.map_cons, ToPlugin.loop, hstep]
        rw [ih hrest]
        simp [List.filterMap_cons, specEntry, hok]

theorem foldl_set_of_nodup (es : List (String × GoVal)) (config : GoMap)
    (hnd : ((config ++ es).map Prod.fst).Nodup) :
    es.foldl (fun m e => GoMap.set m e.1 e.2) config = config ++ es := by
  induction es generalizing config with
  | nil => simp
  | cons e rest ih =>
    have hk : e.1 ∉ config.map Prod.fst := by
      intro hmem
      rw [List.map_append, List.nodup_append] at hnd
      exact hnd.2.2 hmem (by simp)
    simp only [List.foldl_cons]
    rw [GoMap.set_of_not_mem config e.1 e.2 hk, ih]
    · simp
    · simpa using hnd

theorem specEntry_keys_sublist (l : List (StructField × GoVal)) :
    List.Sublist ((l.filterMap specEntry).map Prod.fst)
      (l.map (fun x => tagName (x.1.Get "json"))) := by
  induction l with
  | nil => simp
  | cons x rest ih =>
    by_cases h : isZero (ValueOf (Interface x.2)) = some false
    · simpa [List.filterMap_cons, specEntry, h] using ih
    · simp only [List.filterMap_cons, specEntry, h, if_false, List.map_cons]
      exact ih.trans (List.sublist_cons_self _ _)

theorem ToPlugin_of_regular (plugin : Plugin) (cfg : GoVal) (s : List (StructField × GoVal))
    (hs : strctVal cfg = some s) (hreg : Regular s) :
    ToPlugin plugin cfg = some { plugin with Config := s.filterMap specEntry } := by
  obtain ⟨hnames, hkeys, hall⟩ := hreg
  have hfilter : s.filter (fun x => x.1.Get "structs" != "-") = s := by
    rw [List.filter_eq_self]
    intro x hx
    simpa using (hall x hx).1
  have hloop := loop_of_fields s s
    (fun x hx => ⟨Field_of_mem s hnames x hx, (hall x hx).2.1, (hall x hx).2.2⟩) []
  have hfold := foldl_set_of_nodup (s.filterMap specEntry) []
    (by simpa using (specEntry_keys_sublist s).nodup hkeys)
  simp only [ToPlugin, hs, Names, hfilter, hloop, hfold, List.nil_append]


theorem lookup_eq_some_iff (l : List (String × GoVal)) (hnd : (l.map Prod.fst).Nodup)
    (k : String) (v : GoVal) : l.lookup k = some v ↔ (k, v) ∈ l := by
  induction l with
  | nil => simp
  | cons e rest ih =>
    obtain ⟨k', v'⟩ := e
    simp only [List.map_cons, List.nodup_cons] at hnd
    by_cases hk : k = k'
    · subst hk
      have hnot : (k, v) ∉ rest := fun hmem => hnd.1 (List.mem_map_of_mem Prod.fst hmem)
      simp [List.lookup_cons, hnot, eq_comm]
    · have hbeq : (k == k') = false := by simpa using hk
      simp [List.lookup_cons, hbeq, ih hnd.2, hk]

theorem filterMap_eq_nil_of_forall {α β : Type} (f : α → Option β) (l : List α)
    (h : ∀ x ∈ l, f x = none) : l.filterMap f = [] := by
  induction l with
  | nil => rfl
  | cons x rest ih =>
    simp [List.filterMap_cons, h x (List.mem_cons_self _ _),
      ih (fun y hy => h y (List.mem_cons_of_mem _ hy))]

theorem filterMap_eq_singleton {α β : Type} (f : α → Option β) (l : List α)
    (hnd : l.Nodup) (x : α) (hx : x ∈ l) (e : β) (hfx : f x = some e)
    (hrest : ∀ y ∈ l, y ≠ x → f y = none) : l.filterMap f = [e] := by
  induction l with
  | nil => cases hx
  | cons y rest ih =>
    rw [List.nodup_cons] at hnd
    rcases List.mem_cons.mp hx with h | h
    · subst h
      have hnil : rest.filterMap f = [] :=
        filterMap_eq_nil_of_forall f rest (fun z hz =>
          hrest z (List.mem_cons_of_mem _ hz) (fun heq => hnd.1 (heq ▸ hz)))
      simp [List.filterMap_cons, hfx, hnil]
    · have hyx : y ≠ x := fun heq => hnd.1 (heq ▸ h)
      have hy : f y = none := hrest y (List.mem_cons_self _ _) hyx
      simp [List.filterMap_cons, hy,
        ih hnd.2 h (fun z hz hne => hrest z (List.mem_cons_of_mem _ hz) hne)]

theorem isZero_stringSlice (o : Option (List String)) :
    isZero (ValueOf (stringSlice o)) = some o.isNone := by
  cases o <;> rfl

theorem Interface_stringSlice (o : Option (List String)) :
    Interface (stringSlice o) = stringSlice o := by
  cases o <;> rfl

theorem jsonField_structs (name tag : String) : (jsonField name tag).Get "structs" = "" := by
  simp [jsonField, StructField.Get, List.lookup]

theorem jsonField_ok (name tag : String) (v : GoVal) (hi : Interface v = v)
    (hz : isZero (ValueOf v) ≠ none) :
    (jsonField name tag, v).1.Get "structs" ≠ "-" ∧ (jsonField name tag, v).1.exported = true ∧
      isZero (ValueOf (Interface (jsonField name tag, v).2)) ≠ none := by
  refine ⟨?_, rfl, ?_⟩
  · rw [jsonField_structs]
    decide
  · simpa [hi] using hz

theorem stringSlice_ok (name tag : String) (o : Option (List String)) :
    (jsonField name tag, stringSlice o).1.Get "structs" ≠ "-" ∧
      (jsonField name tag, stringSlice o).1.exported = true ∧
      isZero (ValueOf (Interface (jsonField name tag, stringSlice o).2)) ≠ none :=
  jsonField_ok name tag _ (Interface_stringSlice o) (by simp [isZero_stringSlice])

theorem int_ok (name tag : String) (n : Int) :
    (jsonField name tag, GoVal.int n).1.Get "structs" ≠ "-" ∧
      (jsonField name tag, GoVal.int n).1.exported = true ∧
      isZero (ValueOf (Interface (jsonField name tag, GoVal.int n).2)) ≠ none :=
  jsonField_ok name tag _ rfl (by simp [ValueOf, isZero, isZeroVal])

theorem str_ok (name tag : String) (t : String) :
    (jsonField name tag, GoVal.str t).1.Get "structs" ≠ "-" ∧
      (jsonField name tag, GoVal.str t).1.exported = true ∧
      isZero (ValueOf (Interface (jsonField name tag, GoVal.str t).2)) ≠ none :=
  jsonField_ok name tag _ rfl (by simp [ValueOf, isZero, isZeroVal])

theorem bool_ok (name tag : String) (b : Bool) :
    (jsonField name tag, GoVal.bool b).1.Get "structs" ≠ "-" ∧
      (jsonField name tag, GoVal.bool b).1.exported = true ∧
      isZero (ValueOf (Interface (jsonField name tag, GoVal.bool b).2)) ≠ none :=
  jsonField_ok name tag _ rfl (by simp [ValueOf, isZero, isZeroVal])

theorem configFields_plain (c : TypedPlugin) :
    ∀ x ∈ c.configFields, Interface x.2 = x.2 := by
  intro x hx
  cases c with
  | acl p c =>
    cases c with
    | none => simp [TypedPlugin.configFields] at hx
    | some c =>
      simp only [TypedPlugin.configFields, ACLConfig.fields, List.mem_cons, List.mem_singleton,
        List.not_mem_nil, or_false] at hx
      rcases hx with h | h <;> subst h <;> first | rfl | exact Interface_stringSlice _
  | requestSizeLimiting p c =>
    simp only [TypedPlugin.configFields, RequestSizeLimitingConfig.fields, List.mem_cons,
      List.mem_singleton, List.not_mem_nil, or_false] at hx
    subst hx
    rfl
  | correlationID p c =>
    simp only [TypedPlugin.configFields, CorrelationIDConfig.fields, List.mem_cons,
      List.mem_singleton, List.not_mem_nil, or_false] at hx
    rcases hx with h | h | h <;> subst h <;> rfl
  | rateLimiting p c =>
    simp only [TypedPlugin.configFields, RateLimitingConfig.fields, List.mem_cons,
      List.mem_singleton, List.not_mem_nil, or_false] at hx
    rcases hx with h | h | h | h | h | h | h | h | h | h | h | h | h <;> subst h <;> rfl
  | jwt p c =>
    simp only [TypedPlugin.configFields, JWTConfig.fields, List.mem_cons,
      List.mem_singleton, List.not_mem_nil, or_false] at hx
    rcases hx with h | h | h | h <;> subst h <;> first | rfl | exact Interface_stringSlice _
  | fileLog p c =>
    simp only [TypedPlugin.configFields, FileLogConfig.fields, List.mem_cons,
      List.mem_singleton, List.not_mem_nil, or_false] at hx
    subst hx
    rfl
  | keyAuthentication p c =>
    simp only [TypedPlugin.configFields, KeyAuthenticationConfig.fields, List.mem_cons,
      List.mem_singleton, List.not_mem_nil, or_false] at hx
    rcases hx with h | h <;> subst h <;> first | rfl | exact Interface_stringSlice _

theorem configFields_regular (c : TypedPlugin) : Regular c.configFields := by
  cases c with
  | acl p c =>
    cases c with
    | none => exact ⟨List.nodup_nil, List.nodup_nil, fun x hx => by cases hx⟩
    | some c =>
      refine ⟨?_, ?_, ?_⟩
      · simp only [TypedPlugin.configFields, ACLConfig.fields, List.map]
        decide
      · simp only [TypedPlugin.configFields, ACLConfig.fields, List.map]
        decide
      · intro x hx
        simp only [TypedPlugin.configFields, ACLConfig.fields, List.mem_cons,
          List.mem_singleton, List.not_mem_nil, or_false] at hx
        rcases hx with h | h <;> subst h <;> exact stringSlice_ok _ _ _
  | requestSizeLimiting p c =>
    refine ⟨?_, ?_, ?_⟩
    · simp only [TypedPlugin.configFields, RequestSizeLimitingConfig.fields, List.map]
      decide
    · simp only [TypedPlugin.configFields, RequestSizeLimitingConfig.fields, List.map]
      decide
    · intro x hx
      simp only [TypedPlugin.configFields, RequestSizeLimitingConfig.fields, List.mem_cons,
        List.mem_singleton, List.not_mem_nil, or_false] at hx
      subst hx
      exact int_ok _ _ _
  | correlationID p c =>
    refine ⟨?_, ?_, ?_⟩
    · simp only [TypedPlugin.configFields, CorrelationIDConfig.fields, List.map]
      decide
    · simp only [TypedPlugin.configFields, CorrelationIDConfig.fields, List.map]
      decide
    · intro x hx
      simp only [TypedPlugin.configFields, CorrelationIDConfig.fields, List.mem_cons,
        List.mem_singleton, List.not_mem_nil, or_false] at hx
      rcases hx with h | h | h <;> subst h <;>
        first | exact str_ok _ _ _ | exact bool_ok _ _ _
  | rateLimiting p c =>
    refine ⟨?_, ?_, ?_⟩
    · simp only [TypedPlugin.configFields, RateLimitingConfig.fields, List.map]
      decide
    · simp only [TypedPlugin.configFields, RateLimitingConfig.fields, List.map]
      decide
    · intro x hx
      simp only [TypedPlugin.configFields, RateLimitingConfig.fields, List.mem_cons,
        List.mem_singleton, List.not_mem_nil, or_false] at hx
      rcases hx with h | h | h | h | h | h | h | h | h | h | h | h | h <;> subst h <;>
        first | exact int_ok _ _ _ | exact str_ok _ _ _ | exact bool_ok _ _ _
  | jwt p c =>
    refine ⟨?_, ?_, ?_⟩
    · simp only [TypedPlugin.configFields, JWTConfig.fields, List.map]
      decide
    · simp only [TypedPlugin.configFields, JWTConfig.fields, List.map]
      decide
    · intro x hx
      simp only [TypedPlugin.configFields, JWTConfig.fields, List.mem_cons,
        List.mem_singleton, List.not_mem_nil, or_false] at hx
      rcases hx with h | h | h | h <;> subst h <;>
        first | exact stringSlice_ok _ _ _ | exact str_ok _ _ _ | exact bool_ok _ _ _
  | fileLog p c =>
    refine ⟨?_, ?_, ?_⟩
    · simp only [TypedPlugin.configFields, FileLogConfig.fields, List.map]
      decide
    · simp only [TypedPlugin.configFields, FileLogConfig.fields, List.map]
      decide
    · intro x hx
      simp only [TypedPlugin.configFields, FileLogConfig.fields, List.mem_cons,
        List.mem_singleton, List.not_mem_nil, or_false] at hx
      subst hx
      exact str_ok _ _ _
  | keyAuthentication p c =>
    refine ⟨?_, ?_, ?_⟩
    · simp only [TypedPlugin.configFields, KeyAuthenticationConfig.fields, List.map]
      decide
    · simp only [TypedPlugin.configFields, KeyAuthenticationConfig.fields, List.map]
      decide
    · intro x hx
      simp only [TypedPlugin.configFields, KeyAuthenticationConfig.fields, List.mem_cons,
        List.mem_singleton, List.not_mem_nil, or_false] at hx
      rcases hx with h | h <;> subst h <;>
        first | exact stringSlice_ok _ _ _ | exact bool_ok _ _ _

theorem strctVal_config (c : TypedPlugin) (h : c.configNonNil = true) :
    strctVal c.Config = some c.configFields := by
  cases c with
  | acl p c =>
    cases c with
    | none => simp [TypedPlugin.configNonNil] at h
    | some c => rfl
  | _ => rfl


theorem regular_nodup (s : List (StructField × GoVal)) (h : Regular s) : s.Nodup :=
  List.Nodup.of_map _ h.1

/-- C1. For every typed plugin whose Config is a config struct (not a nil pointer),
ToPlugin returns the embedded Plugin with ID, Name, CreatedAt, Enabled, ApiID and
ConsumerID unchanged, and its Config holds exactly one entry (name part of the json tag,
value) for each config field that isZero classifies as not zero, whatever the embedded
Config held before. A config of zero fields only gives the empty map, and a config with
exactly one field that is not zero gives the one-entry map of that field. -/
theorem ToPlugin_typed_config (c : TypedPlugin) (h : c.configNonNil = true) :
    ∃ q, c.ToPlugin = some q ∧
      q.ID = c.Plugin.ID ∧ q.Name = c.Plugin.Name ∧ q.CreatedAt = c.Plugin.CreatedAt ∧
      q.Enabled = c.Plugin.Enabled ∧ q.ApiID = c.Plugin.ApiID ∧
      q.ConsumerID = c.Plugin.ConsumerID ∧
      (∀ k v, q.Config.get k = some v ↔
        ∃ x ∈ c.configFields, tagName (x.1.Get "json") = k ∧ x.2 = v ∧
          isZero (ValueOf x.2) = some false) ∧
      ((∀ x ∈ c.configFields, isZero (ValueOf x.2) = some true) → q.Config = []) ∧
      (∀ x ∈ c.configFields, isZero (ValueOf x.2) = some false →
        (∀ y ∈ c.configFields, y ≠ x → isZero (ValueOf y.2) = some true) →
        q.Config = [(tagName (x.1.Get "json"), x.2)]) := by
  have hreg := configFields_regular c
  have hplain := configFields_plain c
  have hrun : c.ToPlugin = some { c.Plugin with Config := c.configFields.filterMap specEntry } :=
    ToPlugin_of_regular c.Plugin c.Config c.configFields (strctVal_config c h) hreg
  have hkeys : ((c.configFields.filterMap specEntry).map Prod.fst).Nodup :=
    (specEntry_keys_sublist c.configFields).nodup hreg.2.1
  refine ⟨_, hrun, rfl, rfl, rfl, rfl, rfl, rfl, ?_, ?_, ?_⟩
  · intro k v
    show (c.configFields.filterMap specEntry).lookup k = some v ↔ _
    rw [lookup_eq_some_iff _ hkeys, List.mem_filterMap]
    constructor
    · rintro ⟨x, hx, hsx⟩
      refine ⟨x, hx, ?_⟩
      rw [specEntry, hplain x hx] at hsx
      by_cases hz : isZero (ValueOf x.2) = some false
      · rw [if_pos hz] at hsx
        injection hsx with hsx
        injection hsx with h1 h2
        exact ⟨h1, h2, hz⟩
      · rw [if_neg hz] at hsx
        cases hsx
    · rintro ⟨x, hx, hk, hv, hz⟩
      refine ⟨x, hx, ?_⟩
      rw [specEntry, hplain x hx, if_pos hz, hk, hv]
  · intro hall
    show c.configFields.filterMap specEntry = []
    apply filterMap_eq_nil_of_forall
    intro x hx
    simp [specEntry, hplain x hx, hall x hx]
  · intro x hx hz hrest
    show c.configFields.filterMap specEntry = _
    apply filterMap_eq_singleton specEntry c.configFields (regular_nodup _ hreg) x hx
    · simp [specEntry, hplain x hx, hz]
    · intro y hy hne
      simp [specEntry, hplain y hy, hrest y hy hne]

/-- Witness for C1: RateLimitingConfig with Second = 5 and nothing else set flattens to
the one-entry map second -> 5; the earlier Config content is gone. -/
theorem ToPlugin_typed_config_witness :
    ∃ q, (TypedPlugin.rateLimiting
        ⟨"id1", "rate-limiting", 7, true, "api1", "", [("old", .int 1)]⟩
        ⟨5, 0, 0, 0, 0, 0, "", "", false, "", "", "", 0⟩).ToPlugin = some q ∧
      q.ID = "id1" ∧ q.Name = "rate-limiting" ∧ q.Enabled = true ∧
      q.Config = [("second", .int 5)] := by
  obtain ⟨q, hq, hid, hname, -, hen, -, -, -, -, hone⟩ := ToPlugin_typed_config
    (TypedPlugin.rateLimiting ⟨"id1", "rate-limiting", 7, true, "api1", "", [("old", .int 1)]⟩
      ⟨5, 0, 0, 0, 0, 0, "", "", false, "", "", "", 0⟩) rfl
  refine ⟨q, hq, hid, hname, hen, ?_⟩
  have := hone (jsonField "Second" "second,omitempty", .int 5)
    (by simp [TypedPlugin.configFields, RateLimitingConfig.fields]) rfl
    (by
      intro y hy hne
      simp only [TypedPlugin.configFields, RateLimitingConfig.fields, List.mem_cons,
        List.mem_singleton, List.not_mem_nil, or_false] at hy
      rcases hy with h | h | h | h | h | h | h | h | h | h | h | h | h <;> subst h <;>
        first | rfl | exact absurd rfl hne)
  rw [this]
  rfl

theorem keys_omitempty (e : Bool) (key : String) (val : JSON) (k : String) :
    k ∈ (omitempty e key val).map Prod.fst ↔ (e = false ∧ k = key) := by
  cases e <;> simp [omitempty]

theorem Plugin.encode_keys (encodeConfig : GoMap → Option JSON) (p : Plugin) (j : JSON)
    (h : Plugin.encode encodeConfig p = some j) :
    ("name" ∈ j.keys ↔ p.Name ≠ "") ∧ ("enabled" ∈ j.keys ↔ p.Enabled = true) ∧
    ("api_id" ∈ j.keys ↔ p.ApiID ≠ "") ∧ ("consumer_id" ∈ j.keys ↔ p.ConsumerID ≠ "") := by
  unfold Plugin.encode at h
  by_cases hc : p.Config.isEmpty = true
  · simp only [hc, if_true, Option.some.injEq] at h
    subst h
    simp only [JSON.keys, List.map_append, List.mem_append, keys_omitempty]
    refine ⟨?_, ?_, ?_, ?_⟩ <;> simp
  · cases he : encodeConfig p.Config with
    | none => simp [hc, he] at h
    | some cfg =>
      simp only [hc, he, Bool.false_eq_true, if_false, Option.some.injEq] at h
      subst h
      simp only [JSON.keys, List.map_append, List.mem_append, keys_omitempty, List.map_cons,
        List.map_nil, List.mem_singleton]
      refine ⟨?_, ?_, ?_, ?_⟩ <;> simp

/-! ## C2: empty sequences -/

/-- C2, as stated, fails: an allocated slice of length 0 is not nil, isZero classifies it
as not zero, and flattening ACLConfig with Whitelist = ["a"] and Blacklist = an allocated
empty slice stores both whitelist and blacklist. -/
theorem ACL_empty_slice_is_stored :
    isZero (ValueOf (stringSlice (some []))) = some false ∧
    ACLPlugin.ToPlugin ⟨Plugin.zero, some ⟨some ["a"], some []⟩⟩ =
      some { Plugin.zero with
        Config := [("whitelist", .slice [.str "a"]), ("blacklist", .slice [])] } :=
  ⟨rfl, rfl⟩

/-- C2, amended. For every ACLConfig, a sequence field that is a nil slice is classified
zero by isZero and left out of the map built by ToPlugin, and a sequence field that is an
allocated slice, of any length, is classified not zero and stored under its key;
whitelist and blacklist are the only keys. Flattening Whitelist = ["a"] with a nil
Blacklist yields exactly the map whitelist -> ["a"]. -/
theorem ACL_nil_slice_is_omitted (p : Plugin) (w b : Option (List String)) :
    isZero (ValueOf (stringSlice w)) = some w.isNone ∧
    isZero (ValueOf (stringSlice b)) = some b.isNone ∧
    (∃ q, ACLPlugin.ToPlugin ⟨p, some ⟨w, b⟩⟩ = some q ∧
      q.Config.get "whitelist" = w.map (fun l => stringSlice (some l)) ∧
      q.Config.get "blacklist" = b.map (fun l => stringSlice (some l)) ∧
      ∀ k, k ≠ "whitelist" → k ≠ "blacklist" → q.Config.get k = none) ∧
    ACLPlugin.ToPlugin ⟨p, some ⟨some ["a"], none⟩⟩ =
      some { p with Config := [("whitelist", .slice [.str "a"])] } := by
  refine ⟨isZero_stringSlice w, isZero_stringSlice b, ?_, rfl⟩
  cases w <;> cases b
  · exact ⟨{ p with Config := [] }, rfl, rfl, rfl, fun k _ _ => rfl⟩
  · refine ⟨{ p with Config := [("blacklist", stringSlice (some _))] }, rfl, rfl, rfl, ?_⟩
    intro k _ hb
    have : (k == "blacklist") = false := by simpa using hb
    simp [GoMap.get, List.lookup, this]
  · refine ⟨{ p with Config := [("whitelist", stringSlice (some _))] }, rfl, rfl, rfl, ?_⟩
    intro k hw _
    have : (k == "whitelist") = false := by simpa using hw
    simp [GoMap.get, List.lookup, this]
  · refine ⟨{ p with Config := [("whitelist", stringSlice (some _)),
      ("blacklist", stringSlice (some _))] }, rfl, rfl, rfl, ?_⟩
    intro k hw hb
    have h1 : (k == "whitelist") = false := by simpa using hw
    have h2 : (k == "blacklist") = false := by simpa using hb
    simp [GoMap.get, List.lookup, h1, h2]

/-! ## C3: pointers -/

/-- C3 at the failing input: isZero on a nil pointer does not return true, it panics
(reflect.Indirect yields the zero Value, and v.Type() panics on it). -/
theorem isZero_nil_pointer_panics : isZero (ValueOf GoVal.nilPtr) = none :=
  rfl

/-- For a pointer that is not nil, isZero is isZero of the addressable value it points
to. -/
theorem isZero_pointer (t : GoVal) (addr : Bool) :
    isZero (.mk (.ptr t) addr) = isZero (.mk t true) := by
  simp [isZero, isZeroVal]

/-! ## C4: wire keys -/

theorem jsonField_wireKey_ne (name tag : String) (v : GoVal) (h : tagName tag ≠ "") :
    wireKey (jsonField name tag, v).1 ≠ "" := by
  simpa [wireKey, jsonField] using h

theorem configFields_tagged (c : TypedPlugin) :
    ∀ x ∈ c.configFields, (x.1.Tag.lookup "json").isSome = true ∧
      wireKey x.1 = tagName (x.1.Get "json") ∧ wireKey x.1 ≠ "" := by
  intro x hx
  cases c with
  | acl p c =>
    cases c with
    | none => simp [TypedPlugin.configFields] at hx
    | some c =>
      simp only [TypedPlugin.configFields, ACLConfig.fields, List.mem_cons, List.mem_singleton,
        List.not_mem_nil, or_false] at hx
      rcases hx with h | h <;> subst h <;> exact ⟨rfl, rfl, jsonField_wireKey_ne _ _ _ (by decide)⟩
  | requestSizeLimiting p c =>
    simp only [TypedPlugin.configFields, RequestSizeLimitingConfig.fields, List.mem_cons,
      List.mem_singleton, List.not_mem_nil, or_false] at hx
    subst hx
    exact ⟨rfl, rfl, jsonField_wireKey_ne _ _ _ (by decide)⟩
  | correlationID p c =>
    simp only [TypedPlugin.configFields, CorrelationIDConfig.fields, List.mem_cons,
      List.mem_singleton, List.not_mem_nil, or_false] at hx
    rcases hx with h | h | h <;> subst h <;> exact ⟨rfl, rfl, jsonField_wireKey_ne _ _ _ (by decide)⟩
  | rateLimiting p c =>
    simp only [TypedPlugin.configFields, RateLimitingConfig.fields, List.mem_cons,
      List.mem_singleton, List.not_mem_nil, or_false] at hx
    rcases hx with h | h | h | h | h | h | h | h | h | h | h | h | h <;> subst h <;>
      exact ⟨rfl, rfl, jsonField_wireKey_ne _ _ _ (by decide)⟩
  | jwt p c =>
    simp only [TypedPlugin.configFields, JWTConfig.fields, List.mem_cons,
      List.mem_singleton, List.not_mem_nil, or_false] at hx
    rcases hx with h | h | h | h <;> subst h <;> exact ⟨rfl, rfl, jsonField_wireKey_ne _ _ _ (by decide)⟩
  | fileLog p c =>
    simp only [TypedPlugin.configFields, FileLogConfig.fields, List.mem_cons,
      List.mem_singleton, List.not_mem_nil, or_false] at hx
    subst hx
    exact ⟨rfl, rfl, jsonField_wireKey_ne _ _ _ (by decide)⟩
  | keyAuthentication p c =>
    simp only [TypedPlugin.configFields, KeyAuthenticationConfig.fields, List.mem_cons,
      List.mem_singleton, List.not_mem_nil, or_false] at hx
    rcases hx with h | h <;> subst h <;> exact ⟨rfl, rfl, jsonField_wireKey_ne _ _ _ (by decide)⟩

/-- C4. For every field of the config struct of every typed plugin, the key under which
ToPlugin stores the field in the output map is the wire key of the specification: the
name part of the json tag (the text before the first comma) when the field has a json
tag, the Go name when it has none. Every field of the seven config structs has a json
tag, so the key is the name part of the tag, and it is never the empty string. The loop
body stores a field that is not zero under that key, and the map ToPlugin returns holds
the value of the field under that key. -/
theorem typed_config_wire_key (c : TypedPlugin) (h : c.configNonNil = true) :
    ∃ q, c.ToPlugin = some q ∧
      ∀ x ∈ c.configFields,
        (x.1.Tag.lookup "json").isSome = true ∧
        wireKey x.1 = tagName (x.1.Get "json") ∧
        wireKey x.1 ≠ "" ∧
        (isZero (ValueOf x.2) = some false →
          (∀ config : GoMap, ToPlugin.step c.configFields config x.1.Name =
            some (config.set (wireKey x.1) x.2)) ∧
          q.Config.get (wireKey x.1) = some x.2) := by
  have hreg := configFields_regular c
  have hplain := configFields_plain c
  have hrun : c.ToPlugin = some { c.Plugin with Config := c.configFields.filterMap specEntry } :=
    ToPlugin_of_regular c.Plugin c.Config c.configFields (strctVal_config c h) hreg
  have hkeys : ((c.configFields.filterMap specEntry).map Prod.fst).Nodup :=
    (specEntry_keys_sublist c.configFields).nodup hreg.2.1
  refine ⟨_, hrun, ?_⟩
  intro x hx
  obtain ⟨htag, hkey, hne⟩ := configFields_tagged c x hx
  refine ⟨htag, hkey, hne, ?_⟩
  intro hz
  have hz' : isZero (ValueOf (Interface x.2)) = some false := by rw [hplain x hx]; exact hz
  constructor
  · intro config
    have hstep := step_of_field c.configFields config x.1.Name x
      (Field_of_mem c.configFields hreg.1 x hx) (hreg.2.2 x hx).2.1 false hz'
    simp only [Bool.false_eq_true, if_false] at hstep
    rw [hstep, hkey, hplain x hx]
  · show (c.configFields.filterMap specEntry).lookup (wireKey x.1) = some x.2
    rw [lookup_eq_some_iff _ hkeys, List.mem_filterMap]
    refine ⟨x, hx, ?_⟩
    rw [specEntry, if_pos hz', hkey, hplain x hx]

/-- Witness for C4: the field Day of RateLimitingConfig, tagged "day, omitempty", set to
3: the returned map holds 3 under the key day. -/
theorem typed_config_wire_key_witness :
    ∃ q, (TypedPlugin.rateLimiting Plugin.zero
        ⟨0, 0, 0, 3, 0, 0, "", "", false, "", "", "", 0⟩).ToPlugin = some q ∧
      q.Config.get "day" = some (.int 3) := by
  obtain ⟨q, hq, hall⟩ := typed_config_wire_key
    (TypedPlugin.rateLimiting Plugin.zero ⟨0, 0, 0, 3, 0, 0, "", "", false, "", "", "", 0⟩) rfl
  exact ⟨q, hq, ((hall (jsonField "Day" "day, omitempty", .int 3)
    (by simp [TypedPlugin.configFields, RateLimitingConfig.fields])).2.2.2 rfl).2⟩

/-! ## C10: structs -/

theorem GoMap.mem_set (m : GoMap) (k : String) (v : GoVal) (e : String × GoVal)
    (he : e ∈ GoMap.set m k v) : e ∈ m ∨ e = (k, v) := by
  induction m with
  | nil =>
    simp only [GoMap.set, List.mem_singleton] at he
    exact Or.inr he
  | cons y rest ih =>
    obtain ⟨k', v'⟩ := y
    by_cases hk : k' = k
    · simp only [GoMap.set, hk, if_true, List.mem_cons] at he
      rcases he with h | h
      · exact Or.inr h
      · exact Or.inl (List.mem_cons_of_mem _ h)
    · simp only [GoMap.set, hk, if_false, List.mem_cons] at he
      rcases he with h | h
      · exact Or.inl (h ▸ List.mem_cons_self _ _)
      · rcases ih h with h' | h'
        · exact Or.inl (List.mem_cons_of_mem _ h')
        · exact Or.inr h'

theorem isZero_struct_by_value (fields : List (StructField × GoVal)) :
    isZero (ValueOf (.struct fields)) = some true :=
  isZeroStruct_not_addr true fields

theorem step_no_struct (s : List (StructField × GoVal)) (config config' : GoMap) (v : String)
    (hc : ∀ e ∈ config, ∀ fields, e.2 ≠ GoVal.struct fields)
    (h : ToPlugin.step s config v = some config') :
    ∀ e ∈ config', ∀ fields, e.2 ≠ GoVal.struct fields := by
  unfold ToPlugin.step at h
  cases hf : Field s v with
  | none => simp [hf] at h
  | some x =>
    cases hv : Field.Value x with
    | none => simp [hf, hv] at h
    | some val =>
      cases hz : isZero (ValueOf val) with
      | none => simp [hf, hv, hz] at h
      | some ok =>
        cases ok with
        | true =>
          simp only [hf, hv, hz, Bool.not_true, Bool.false_eq_true, if_false,
            Option.some.injEq] at h
          exact h ▸ hc
        | false =>
          cases ht : Split (x.1.Get "json") ',' with
          | nil => simp [hf, hv, hz, ht] at h
          | cons tag0 rest =>
            simp only [hf, hv, hz, ht, Bool.not_false, if_true, Option.some.injEq] at h
            subst h
            intro e he fields hstruct
            rcases GoMap.mem_set config tag0 val e he with h' | h'
            · exact hc e h' fields hstruct
            · subst h'
              simp only at hstruct
              rw [hstruct, isZero_struct_by_value] at hz
              cases hz

theorem loop_no_struct (s : List (StructField × GoVal)) (names : List String)
    (config config' : GoMap)
    (hc : ∀ e ∈ config, ∀ fields, e.2 ≠ GoVal.struct fields)
    (h : ToPlugin.loop s names config = some config') :
    ∀ e ∈ config', ∀ fields, e.2 ≠ GoVal.struct fields := by
  induction names generalizing config with
  | nil =>
    simp only [ToPlugin.loop, Option.some.injEq] at h
    exact h ▸ hc
  | cons v rest ih =>
    cases hs : ToPlugin.step s config v with
    | none => simp [ToPlugin.loop, hs] at h
    | some c1 =>
      simp only [ToPlugin.loop, hs] at h
      exact ih c1 (step_no_struct s config c1 v hc hs) h

theorem lookup_mem (m : GoMap) (k : String) (v : GoVal) (h : m.lookup k = some v) :
    (k, v) ∈ m := by
  induction m with
  | nil => simp at h
  | cons e rest ih =>
    obtain ⟨k', v'⟩ := e
    by_cases hk : k = k'
    · subst hk
      simp only [List.lookup_cons, beq_self_eq_true, Option.some.injEq] at h
      subst h
      exact List.mem_cons_self _ _
    · have hbeq : (k == k') = false := by simpa using hk
      simp only [List.lookup_cons, hbeq] at h
      exact List.mem_cons_of_mem _ (ih h)

/-- C10. For every struct value, addressable or not, isZero is true exactly when every
settable field is classified zero, a field being settable exactly when it is exported and
the struct is addressable. A struct handed over by value has no settable field and is
classified zero whatever it holds, so the loop body of ToPlugin leaves the map unchanged
for a struct-typed field, and no map that ToPlugin returns holds a struct value. -/
theorem isZero_struct_settable_fields :
    (∀ (addr : Bool) (fields : List (StructField × GoVal)),
      (isZero (.mk (.struct fields) addr) = some true ↔
        ∀ x ∈ fields, CanSet addr x.1 = true → isZero (.mk x.2 addr) = some true)) ∧
    (∀ (addr : Bool) (f : StructField),
      (CanSet addr f = true ↔ f.exported = true ∧ addr = true)) ∧
    (∀ fields : List (StructField × GoVal), isZero (ValueOf (.struct fields)) = some true) ∧
    (∀ (s : List (StructField × GoVal)) (config : GoMap) (v : String) (f : StructField)
        (fields : List (StructField × GoVal)),
      Field s v = some (f, .struct fields) → f.exported = true →
        ToPlugin.step s config v = some config) ∧
    (∀ (plugin q : Plugin) (cfg : GoVal), ToPlugin plugin cfg = some q →
      ∀ k fields, q.Config.get k ≠ some (.struct fields)) := by
  refine ⟨?_, ?_, isZero_struct_by_value, ?_, ?_⟩
  · intro addr fields
    exact isZeroStruct_true_iff addr fields
  · intro addr f
    cases addr <;> simp [CanSet]
  · intro s config v f fields hf he
    have := step_of_field s config v (f, .struct fields) hf he true
      (isZero_struct_by_value fields)
    simpa using this
  · intro plugin q cfg h k fields hget
    unfold ToPlugin at h
    cases hs : strctVal cfg with
    | none => simp [hs] at h
    | some s =>
      cases hl : ToPlugin.loop s (Names s) [] with
      | none => simp [hs, hl] at h
      | some config =>
        simp only [hs, hl, Option.some.injEq] at h
        subst h
        have hno := loop_no_struct s (Names s) [] config (fun e he => by cases he) hl
        exact hno (k, .struct fields) (lookup_mem config k _ hget) fields rfl

/-- Witness for C10: a config with a struct-typed field Limits holding a field that is
not zero, next to a string field: ToPlugin stores the string and leaves Limits out. -/
theorem isZero_struct_settable_fields_witness :
    ToPlugin Plugin.zero (.struct [
        (jsonField "Limits" "limits", .struct [(jsonField "Max" "max", .int 9)]),
        (jsonField "Path" "path", .str "/tmp/x")]) =
      some { Plugin.zero with Config := [("path", .str "/tmp/x")] } ∧
    GoMap.get [("path", GoVal.str "/tmp/x")] "limits" ≠
      some (.struct [(jsonField "Max" "max", .int 9)]) :=
  ⟨rfl, isZero_struct_settable_fields.2.2.2.2 Plugin.zero
    { Plugin.zero with Config := [("path", .str "/tmp/x")] }
    (.struct [
        (jsonField "Limits" "limits", .struct [(jsonField "Max" "max", .int 9)]),
        (jsonField "Path" "path", .str "/tmp/x")]) rfl "limits" _⟩

/-! ## C5: the body of POST /plugins -/

/-- C5, as stated, fails: for a plugin with Name acl and Enabled = false the request body
of Post is the object with the single key name; enabled is not sent as false, it is left
out. -/
theorem Post_body_omits_enabled_false :
    requests (PluginsService.Post okClient (some aclDisabled)).calls =
      [("POST", "plugins", some (.plugin (some aclDisabled)))] ∧
    requestPayload (fun _ => none) (some (.plugin (some aclDisabled))) =
      some (some (.obj [("name", .str "acl")])) :=
  ⟨rfl, rfl⟩

/-- C5, amended. For every generic Plugin passed to Post whose Config is empty or can be
encoded, the JSON request body built from it carries the key name exactly when Name is
not empty, the key enabled exactly when Enabled is true (Enabled = false is left out),
and the keys api_id and consumer_id exactly when the field is not empty. -/
theorem Post_body_keys {Req Resp Err : Type} (s : Client Req Resp Err)
    (encodeConfig : GoMap → Option JSON) (p : Plugin)
    (henc : p.Config.isEmpty = true ∨ (encodeConfig p.Config).isSome = true) :
    requests (PluginsService.Post s (some p)).calls =
      [("POST", "plugins", some (.plugin (some p)))] ∧
    ∃ j, requestPayload encodeConfig (some (.plugin (some p))) = some (some j) ∧
      ("name" ∈ j.keys ↔ p.Name ≠ "") ∧ ("enabled" ∈ j.keys ↔ p.Enabled = true) ∧
      ("api_id" ∈ j.keys ↔ p.ApiID ≠ "") ∧ ("consumer_id" ∈ j.keys ↔ p.ConsumerID ≠ "") := by
  constructor
  · by_cases h : (s.NewRequest "POST" "plugins" (some (.plugin (some p)))).2.isSome = true <;>
      simp [Client.callNewRequest, Client.callDoInto, Client.callDoNil,
        Client.callAddOptions, PluginsService.Post, requests, h]
  · have hsome : ∃ j, Plugin.encode encodeConfig p = some j := by
      by_cases hc : p.Config.isEmpty = true
      · simp only [Plugin.encode, hc, if_true]
        exact ⟨_, rfl⟩
      · rcases henc with h | h
        · exact absurd h hc
        · obtain ⟨cfg, hcfg⟩ := Option.isSome_iff_exists.mp h
          simp only [Plugin.encode, hc, hcfg, Bool.false_eq_true, if_false]
          exact ⟨_, rfl⟩
    obtain ⟨j, hj⟩ := hsome
    exact ⟨j, by simp [requestPayload, hj], Plugin.encode_keys encodeConfig p j hj⟩

/-- Witness for C5: a plugin with Name acl, Enabled = true and ApiID api1. -/
theorem Post_body_keys_witness :
    ∃ j, requestPayload (fun _ => none) (some (.plugin (some aclOnApi))) = some (some j) ∧
      ("name" ∈ j.keys ↔ aclOnApi.Name ≠ "") ∧ ("enabled" ∈ j.keys ↔ aclOnApi.Enabled = true) ∧
      ("api_id" ∈ j.keys ↔ aclOnApi.ApiID ≠ "") ∧
      ("consumer_id" ∈ j.keys ↔ aclOnApi.ConsumerID ≠ "") :=
  (Post_body_keys okClient (fun _ => none) aclOnApi (Or.inl rfl)).2

/-! ## C6 and C8: the envelopes -/

theorem fieldIndex_plugins_data : fieldIndex Plugins.jsonNames "data" = none := by rfl
theorem fieldIndex_plugins_consumer : fieldIndex Plugins.jsonNames "consumer" = some 0 := by rfl
theorem fieldIndex_plugins_total : fieldIndex Plugins.jsonNames "total" = some 1 := by rfl
theorem fieldIndex_plugins_next : fieldIndex Plugins.jsonNames "next" = some 2 := by rfl
theorem fieldIndex_certificates_data : fieldIndex Certificates.jsonNames "data" = some 0 := by
  rfl
theorem fieldIndex_certificates_total : fieldIndex Certificates.jsonNames "total" = some 1 := by
  rfl
theorem fieldIndex_certificates_next : fieldIndex Certificates.jsonNames "next" = some 2 := by
  rfl
theorem fieldIndex_certificates_offset :
    fieldIndex Certificates.jsonNames "offset" = some 3 := by rfl

/-- C6, as stated, fails: Plugins declares no offset field, so an offset cursor of a list
response is dropped where Certificates keeps it; and the items under data do not reach
Plugins.Data, whose tag names the key consumer. -/
theorem Plugins_envelope_differs :
    "offset" ∉ Plugins.jsonNames ∧ "offset" ∈ Certificates.jsonNames ∧
    Plugins.decode (fun _ => some Plugin.zero)
        (.obj [("data", .arr [.obj []]), ("total", .num 1), ("next", .str "n"),
          ("offset", .str "o")]) =
      some { Data := none, Total := 1, Next := goBytes "n" } ∧
    Certificates.decode (fun _ => some (some Certificate.zero))
        (.obj [("data", .arr [.obj []]), ("total", .num 1), ("next", .str "n"),
          ("offset", .str "o")]) =
      some { Data := some [some Certificate.zero], Total := 1, Next := goBytes "n",
             Offset := goBytes "o" } :=
  ⟨by decide, by decide, rfl, rfl⟩

/-- C6, amended. For every list response object whose items are under the key data
together with total and next, decoding it into Certificates yields Data equal to the
decoded items in order, with that total and next, and decoding it into Plugins yields
that total and next; both envelope types carry the cursor field next, Certificates also
carries offset and Plugins does not. -/
theorem envelope_decode_list_response (decodePlugin : JSON → Option Plugin)
    (decodeCertificate : JSON → Option (Option Certificate)) (items : List JSON)
    (total : Int) (next : String) (certs : List (Option Certificate))
    (hrange : inIntRange total = true)
    (hitems : decodeItems decodeCertificate items = some certs) :
    Certificates.decode decodeCertificate (listResponse items total next) =
      some { Data := some certs, Total := total, Next := goBytes next, Offset := [] } ∧
    (∃ p, Plugins.decode decodePlugin (listResponse items total next) = some p ∧
      p.Total = total ∧ p.Next = goBytes next) ∧
    "next" ∈ Plugins.jsonNames ∧ "next" ∈ Certificates.jsonNames ∧
    "offset" ∈ Certificates.jsonNames ∧ "offset" ∉ Plugins.jsonNames := by
  refine ⟨?_, ⟨{ Data := none, Total := total, Next := goBytes next }, ?_, rfl, rfl⟩,
    by decide, by decide, by decide, by decide⟩
  · simp [Certificates.decode, listResponse, Certificates.decodeMembers,
      Certificates.decodeMember, fieldIndex_certificates_data, fieldIndex_certificates_total,
      fieldIndex_certificates_next, decodeSlice, hitems, decodeInt, hrange, decodeString,
      Certificates.zero]
  · simp [Plugins.decode, listResponse, Plugins.decodeMembers, Plugins.decodeMember,
      fieldIndex_plugins_data, fieldIndex_plugins_total, fieldIndex_plugins_next,
      decodeInt, hrange, decodeString, Plugins.zero]

/-- Witness for C6: a list response with two items, total 2 and next cursor123. -/
theorem envelope_decode_list_response_witness :
    Certificates.decode (fun _ => some (some Certificate.zero))
        (listResponse [.obj [], .obj []] 2 "cursor123") =
      some { Data := some [some Certificate.zero, some Certificate.zero], Total := 2,
             Next := goBytes "cursor123", Offset := [] } :=
  (envelope_decode_list_response (fun _ => some Plugin.zero)
    (fun _ => some (some Certificate.zero)) [.obj [], .obj []] 2 "cursor123"
    [some Certificate.zero, some Certificate.zero] rfl rfl).1

theorem isEmpty_eq_false_of_ne_nil {α : Type} (l : List α) (h : l ≠ []) :
    l.isEmpty = false := by
  cases l with
  | nil => exact absurd rfl h
  | cons a l => rfl

theorem plugins_decode_tail (decodeItem : JSON → Option Plugin) (acc : Plugins)
    (t : Int) (n : GoString) (hr : inIntRange t = true) (ht : acc.Total = 0)
    (hn : acc.Next = []) :
    ∃ p, Plugins.decodeMembers decodeItem acc
        (omitempty (t == 0) "total" (.num t) ++
          omitempty n.isEmpty "next" (.str (jsonText n))) = some p ∧
      p.Total = t ∧ p.Next = goBytes (jsonText n) := by
  by_cases hs : n = []
  · subst hs
    have hg : goBytes (jsonText []) = [] := rfl
    by_cases h0 : t = 0 <;>
      simp [omitempty, h0, Plugins.decodeMembers, Plugins.decodeMember,
        fieldIndex_plugins_total, decodeInt, hr, ht, hn, hg]
  · have he := isEmpty_eq_false_of_ne_nil n hs
    by_cases h0 : t = 0 <;>
      simp [omitempty, h0, he, Plugins.decodeMembers, Plugins.decodeMember,
        fieldIndex_plugins_total, fieldIndex_plugins_next, decodeInt, decodeString, hr, ht]

theorem certificates_decode_tail (decodeItem : JSON → Option (Option Certificate))
    (acc : Certificates) (t : Int) (n o : GoString) (hr : inIntRange t = true)
    (ht : acc.Total = 0) (hn : acc.Next = []) :
    ∃ c, Certificates.decodeMembers decodeItem acc
        (omitempty (t == 0) "total" (.num t) ++
          omitempty n.isEmpty "next" (.str (jsonText n)) ++
          omitempty o.isEmpty "offset" (.str (jsonText o))) = some c ∧
      c.Total = t ∧ c.Next = goBytes (jsonText n) := by
  have hg : goBytes (jsonText []) = [] := rfl
  by_cases hs : n = []
  · subst hs
    by_cases ho : o = []
    · subst ho
      by_cases h0 : t = 0 <;>
        simp [omitempty, h0, Certificates.decodeMembers, Certificates.decodeMember,
          fieldIndex_certificates_total, decodeInt, hr, ht, hn, hg]
    · have he := isEmpty_eq_false_of_ne_nil o ho
      by_cases h0 : t = 0 <;>
        simp [omitempty, h0, he, Certificates.decodeMembers, Certificates.decodeMember,
          fieldIndex_certificates_total, fieldIndex_certificates_offset, decodeInt,
          decodeString, hr, ht, hn, hg]
  · have he := isEmpty_eq_false_of_ne_nil n hs
    by_cases ho : o = []
    · subst ho
      by_cases h0 : t = 0 <;>
        simp [omitempty, h0, he, Certificates.decodeMembers, Certificates.decodeMember,
          fieldIndex_certificates_total, fieldIndex_certificates_next, decodeInt,
          decodeString, hr, ht]
    · have he' := isEmpty_eq_false_of_ne_nil o ho
      by_cases h0 : t = 0 <;>
        simp [omitempty, h0, he, he', Certificates.decodeMembers, Certificates.decodeMember,
          fieldIndex_certificates_total, fieldIndex_certificates_next,
          fieldIndex_certificates_offset, decodeInt, decodeString, hr, ht]

/-- C8, as stated, fails: a Next holding the byte 0xff, which is not valid UTF-8, is
written by the encoder as the text U+FFFD and comes back as the three bytes EF BF BD, in
a Plugins envelope and in a Certificates envelope alike. -/
theorem invalid_utf8_cursor_is_rewritten :
    Plugins.encode (fun _ => none) badCursorPlugins =
      some (.obj [("total", .num 2), ("next", .str (String.mk [Char.ofNat 0xFFFD]))]) ∧
    Plugins.decode (fun _ => none) (.obj [("total", .num 2), ("next", .str (String.mk [Char.ofNat 0xFFFD]))]) =
      some { Data := none, Total := 2, Next := [0xEF, 0xBF, 0xBD] } ∧
    Certificates.encode (fun _ => none) badCursorCertificates =
      some (.obj [("total", .num 2), ("next", .str (String.mk [Char.ofNat 0xFFFD]))]) ∧
    Certificates.decode (fun _ => none) (.obj [("total", .num 2), ("next", .str (String.mk [Char.ofNat 0xFFFD]))]) =
      some { Data := none, Total := 2, Next := [0xEF, 0xBF, 0xBD], Offset := [] } ∧
    ([0xEF, 0xBF, 0xBD] : GoString) ≠ badCursorPlugins.Next ∧
    ([0xEF, 0xBF, 0xBD] : GoString) ≠ badCursorCertificates.Next :=
  ⟨rfl, rfl, rfl, rfl, by decide, by decide⟩

/-- C8, amended. For every Plugins and every Certificates envelope, with any Total of the
range of int and any Next, Total = 0 and the empty Next included, whose Data elements can
be encoded and decoded: encoding the envelope by its field tags succeeds, decoding the
result into a fresh envelope of the same type succeeds, the decoded envelope has the same
Total, its Next is the UTF-8 encoding of the text the encoder wrote, and that is the same
Next whenever Next is valid UTF-8 (the encoding of some text). -/
theorem envelope_round_trip (encodePlugin : Plugin → Option JSON)
    (decodePlugin : JSON → Option Plugin)
    (encodeCertificate : Option Certificate → Option JSON)
    (decodeCertificate : JSON → Option (Option Certificate))
    (p : Plugins) (c : Certificates)
    (hp : inIntRange p.Total = true) (hc : inIntRange c.Total = true)
    (hpd : ∃ js, encodeItems encodePlugin (p.Data.getD []) = some js ∧
      (decodeItems decodePlugin js).isSome = true)
    (hcd : ∃ js, encodeItems encodeCertificate (c.Data.getD []) = some js ∧
      (decodeItems decodeCertificate js).isSome = true) :
    (∃ j p', Plugins.encode encodePlugin p = some j ∧
      Plugins.decode decodePlugin j = some p' ∧ p'.Total = p.Total ∧
      p'.Next = goBytes (jsonText p.Next) ∧
      ((∃ t, p.Next = goBytes t) → p'.Next = p.Next)) ∧
    (∃ j c', Certificates.encode encodeCertificate c = some j ∧
      Certificates.decode decodeCertificate j = some c' ∧ c'.Total = c.Total ∧
      c'.Next = goBytes (jsonText c.Next) ∧
      ((∃ t, c.Next = goBytes t) → c'.Next = c.Next)) := by
  have hvalid : ∀ n : GoString, (∃ t, n = goBytes t) → goBytes (jsonText n) = n := by
    rintro n ⟨t, rfl⟩
    rw [jsonText_goBytes]
  constructor
  · obtain ⟨js, hjs, hdec⟩ := hpd
    obtain ⟨xs, hxs⟩ := Option.isSome_iff_exists.mp hdec
    by_cases he : (p.Data.getD []).isEmpty = true
    · obtain ⟨p', hp', h1, h2⟩ :=
        plugins_decode_tail decodePlugin Plugins.zero p.Total p.Next hp rfl rfl
      have henc : Plugins.encode encodePlugin p = some (.obj
          (omitempty (p.Total == 0) "total" (.num p.Total) ++
            omitempty p.Next.isEmpty "next" (.str (jsonText p.Next)))) := by
        simp only [Plugins.encode, he, if_true]
      exact ⟨_, p', henc, hp', h1, h2, fun hv => h2.trans (hvalid _ hv)⟩
    · obtain ⟨p', hp', h1, h2⟩ :=
        plugins_decode_tail decodePlugin { Plugins.zero with Data := some xs }
          p.Total p.Next hp rfl rfl
      have henc : Plugins.encode encodePlugin p = some (.obj (("consumer", .arr js) ::
          (omitempty (p.Total == 0) "total" (.num p.Total) ++
            omitempty p.Next.isEmpty "next" (.str (jsonText p.Next))))) := by
        simp only [Plugins.encode, he, hjs, Bool.false_eq_true, if_false]
      refine ⟨_, p', henc, ?_, h1, h2, fun hv => h2.trans (hvalid _ hv)⟩
      simp only [Plugins.decode, Plugins.decodeMembers, Plugins.decodeMember,
        fieldIndex_plugins_consumer, decodeSlice, hxs, Option.map_some']
      exact hp'
  · obtain ⟨js, hjs, hdec⟩ := hcd
    obtain ⟨xs, hxs⟩ := Option.isSome_iff_exists.mp hdec
    by_cases he : (c.Data.getD []).isEmpty = true
    · obtain ⟨c', hc', h1, h2⟩ :=
        certificates_decode_tail decodeCertificate Certificates.zero c.Total c.Next
          c.Offset hc rfl rfl
      have henc : Certificates.encode encodeCertificate c = some (.obj
          (omitempty (c.Total == 0) "total" (.num c.Total) ++
            omitempty c.Next.isEmpty "next" (.str (jsonText c.Next)) ++
            omitempty c.Offset.isEmpty "offset" (.str (jsonText c.Offset)))) := by
        simp only [Certificates.encode, he, if_true]
      exact ⟨_, c', henc, hc', h1, h2, fun hv => h2.trans (hvalid _ hv)⟩
    · obtain ⟨c', hc', h1, h2⟩ :=
        certificates_decode_tail decodeCertificate
          { Certificates.zero with Data := some xs } c.Total c.Next c.Offset hc rfl rfl
      have henc : Certificates.encode encodeCertificate c = some (.obj (("data", .arr js) ::
          (omitempty (c.Total == 0) "total" (.num c.Total) ++
            omitempty c.Next.isEmpty "next" (.str (jsonText c.Next)) ++
            omitempty c.Offset.isEmpty "offset" (.str (jsonText c.Offset))))) := by
        simp only [Certificates.encode, he, hjs, Bool.false_eq_true, if_false]
      refine ⟨_, c', henc, ?_, h1, h2, fun hv => h2.trans (hvalid _ hv)⟩
      simp only [Certificates.decode, Certificates.decodeMembers, Certificates.decodeMember,
        fieldIndex_certificates_data, decodeSlice, hxs, Option.map_some']
      exact hc'

/-- Witness for C8: Total = 2 and Next = cursor123 come back from both envelopes. -/
theorem envelope_round_trip_witness :
    (∃ j p', Plugins.encode (fun _ => some (.obj [])) twoPlugins = some j ∧
      Plugins.decode (fun _ => some Plugin.zero) j = some p' ∧
      p'.Total = 2 ∧ p'.Next = goBytes "cursor123") ∧
    (∃ j c', Certificates.encode (fun _ => some .null) twoCertificates = some j ∧
      Certificates.decode (fun _ => some none) j = some c' ∧
      c'.Total = 2 ∧ c'.Next = goBytes "cursor123") := by
  obtain ⟨⟨j, p', h1, h2, h3, -, h4⟩, ⟨k, c', g1, g2, g3, -, g4⟩⟩ :=
    envelope_round_trip (fun _ => some (.obj [])) (fun _ => some Plugin.zero)
      (fun _ => some .null) (fun _ => some none)
      twoPlugins twoCertificates rfl rfl ⟨[.obj []], rfl, rfl⟩ ⟨[.null], rfl, rfl⟩
  exact ⟨⟨j, p', h1, h2, h3, h4 ⟨"cursor123", rfl⟩⟩, ⟨k, c', g1, g2, g3, g4 ⟨"cursor123", rfl⟩⟩⟩

/-! ## C7 and C9: the services over the pipeline -/

/-- C7. Every read operation of both services, on every client, returns a result exactly
when the returned error is nil. When option encoding or request construction fails, the
error comes back with a nil result and a nil response and Do is not called. When Do
fails, the result is nil and the response and the error of Do come back unchanged. -/
theorem read_operations_contract {Req Resp Err : Type} (s : Client Req Resp Err)
    (id name certificateID : String) (opt : Option PluginsGetAllOptions) :
    ReadContract (s.NewRequest "GET" ("plugins/" ++ id) none).2
      (s.DoInto .plugin (s.NewRequest "GET" ("plugins/" ++ id) none).1 Plugin.zero).2.1
      (s.DoInto .plugin (s.NewRequest "GET" ("plugins/" ++ id) none).1 Plugin.zero).2.2
      (PluginsService.Get s id) ∧
    ReadContract (s.NewRequest "GET" "plugins/enabled" none).2
      (s.DoInto .enabledPlugins (s.NewRequest "GET" "plugins/enabled" none).1
        EnabledPlugins.zero).2.1
      (s.DoInto .enabledPlugins (s.NewRequest "GET" "plugins/enabled" none).1
        EnabledPlugins.zero).2.2
      (PluginsService.GetEnabled s) ∧
    ReadContract
      (if (s.addOptions "plugins" opt).2.isSome then (s.addOptions "plugins" opt).2
        else (s.NewRequest "GET" (s.addOptions "plugins" opt).1 none).2)
      (s.DoInto .plugins (s.NewRequest "GET" (s.addOptions "plugins" opt).1 none).1
        Plugins.zero).2.1
      (s.DoInto .plugins (s.NewRequest "GET" (s.addOptions "plugins" opt).1 none).1
        Plugins.zero).2.2
      (PluginsService.GetAll s opt) ∧
    ReadContract (s.NewRequest "GET" ("plugins/schema/" ++ name) none).2
      (s.DoInto .schema (s.NewRequest "GET" ("plugins/schema/" ++ name) none).1 []).2.1
      (s.DoInto .schema (s.NewRequest "GET" ("plugins/schema/" ++ name) none).1 []).2.2
      (PluginsService.GetSchema s name) ∧
    ReadContract (s.NewRequest "GET" ("certificates/" ++ certificateID) none).2
      (s.DoInto .certificate (s.NewRequest "GET" ("certificates/" ++ certificateID) none).1
        Certificate.zero).2.1
      (s.DoInto .certificate (s.NewRequest "GET" ("certificates/" ++ certificateID) none).1
        Certificate.zero).2.2
      (CertificatesService.Get s certificateID) ∧
    ReadContract (s.NewRequest "GET" "certificates" none).2
      (s.DoInto .certificates (s.NewRequest "GET" "certificates" none).1
        Certificates.zero).2.1
      (s.DoInto .certificates (s.NewRequest "GET" "certificates" none).1
        Certificates.zero).2.2
      (CertificatesService.GetAll s) := by
  refine ⟨?_, ?_, ?_, ?_, ?_, ?_⟩
  · unfold ReadContract PluginsService.Get
    cases h1 : (s.NewRequest "GET" ("plugins/" ++ id) none).2 <;>
      cases h2 : (s.DoInto .plugin (s.NewRequest "GET" ("plugins/" ++ id) none).1
        Plugin.zero).2.2 <;> simp [Client.callNewRequest, Client.callDoInto, Client.callDoNil,
        Client.callAddOptions, h1, h2, Call.isDo]
  · unfold ReadContract PluginsService.GetEnabled
    cases h1 : (s.NewRequest "GET" "plugins/enabled" none).2 <;>
      cases h2 : (s.DoInto .enabledPlugins (s.NewRequest "GET" "plugins/enabled" none).1
        EnabledPlugins.zero).2.2 <;> simp [Client.callNewRequest, Client.callDoInto, Client.callDoNil,
        Client.callAddOptions, h1, h2, Call.isDo]
  · unfold ReadContract PluginsService.GetAll
    cases h0 : (s.addOptions "plugins" opt).2 <;>
      cases h1 : (s.NewRequest "GET" (s.addOptions "plugins" opt).1 none).2 <;>
      cases h2 : (s.DoInto .plugins (s.NewRequest "GET" (s.addOptions "plugins" opt).1 none).1
        Plugins.zero).2.2 <;> simp [Client.callNewRequest, Client.callDoInto, Client.callDoNil,
        Client.callAddOptions, h0, h1, h2, Call.isDo]
  · unfold ReadContract PluginsService.GetSchema
    cases h1 : (s.NewRequest "GET" ("plugins/schema/" ++ name) none).2 <;>
      cases h2 : (s.DoInto .schema (s.NewRequest "GET" ("plugins/schema/" ++ name) none).1
        []).2.2 <;> simp [Client.callNewRequest, Client.callDoInto, Client.callDoNil,
        Client.callAddOptions, h1, h2, Call.isDo]
  · unfold ReadContract CertificatesService.Get
    cases h1 : (s.NewRequest "GET" ("certificates/" ++ certificateID) none).2 <;>
      cases h2 : (s.DoInto .certificate
        (s.NewRequest "GET" ("certificates/" ++ certificateID) none).1
        Certificate.zero).2.2 <;> simp [Client.callNewRequest, Client.callDoInto, Client.callDoNil,
        Client.callAddOptions, h1, h2, Call.isDo]
  · unfold ReadContract CertificatesService.GetAll
    cases h1 : (s.NewRequest "GET" "certificates" none).2 <;>
      cases h2 : (s.DoInto .certificates (s.NewRequest "GET" "certificates" none).1
        Certificates.zero).2.2 <;> simp [Client.callNewRequest, Client.callDoInto, Client.callDoNil,
        Client.callAddOptions, h1, h2, Call.isDo]

/-- Witness for C7: on a client whose NewRequest fails, Get returns that error with a nil
result and a nil response, and Do is not called; on a client whose Do answers 404,
CertificatesService.Get returns a nil result with the response and the error of Do. -/
theorem read_operations_contract_witness :
    ((PluginsService.Get noRequestClient "p1").result = none ∧
      (PluginsService.Get noRequestClient "p1").resp = none ∧
      (PluginsService.Get noRequestClient "p1").err = some "bad url" ∧
      ∀ c ∈ (PluginsService.Get noRequestClient "p1").calls, c.isDo = false) ∧
    ((CertificatesService.Get notFoundClient "abc").result = none ∧
      (CertificatesService.Get notFoundClient "abc").resp = some 404 ∧
      (CertificatesService.Get notFoundClient "abc").err = some "404 Not Found") :=
  ⟨(read_operations_contract noRequestClient "p1" "n" "abc" none).1.2.1 (by decide),
   (read_operations_contract notFoundClient "p1" "n" "abc" none).2.2.2.2.1.2.2 rfl
     (by decide)⟩

/-- C9, as stated, fails: PluginsService.Patch with a nil plugin builds no request at
all, it panics at plugin.ID before NewRequest is called. -/
theorem Patch_nil_plugin_builds_no_request :
    PluginsService.Patch okClient "a1" none = none :=
  rfl

/-- C9, amended. On every client and for every input, every GET and every DELETE
operation of both services builds its request with no body, and every POST operation,
CertificatesService.Patch, and PluginsService.Patch on a plugin that is not nil build
their request with the plugin or certificate they were given as body; each operation
returns what the client answers to exactly that request. Patch(api, plugin) and
Delete(api, plugin.ID) address the same path apis/api/plugins/id. -/
theorem request_bodies {Req Resp Err : Type} (s : Client Req Resp Err)
    (id name api certificateID : String) (opt : Option PluginsGetAllOptions)
    (plugin : Plugin) (anyPlugin : Option Plugin) (certificate : Option CertificateRequest) :
    (requests (PluginsService.Get s id).calls = [("GET", "plugins/" ++ id, none)] ∧
      ((PluginsService.Get s id).resp, (PluginsService.Get s id).err) =
        readReply s .plugin "GET" ("plugins/" ++ id) Plugin.zero) ∧
    (requests (PluginsService.GetEnabled s).calls = [("GET", "plugins/enabled", none)] ∧
      ((PluginsService.GetEnabled s).resp, (PluginsService.GetEnabled s).err) =
        readReply s .enabledPlugins "GET" "plugins/enabled" EnabledPlugins.zero) ∧
    ((∀ r ∈ requests (PluginsService.GetAll s opt).calls,
        r = ("GET", (s.addOptions "plugins" opt).1, none)) ∧
      ((s.addOptions "plugins" opt).2 ≠ none →
        requests (PluginsService.GetAll s opt).calls = [] ∧
        (PluginsService.GetAll s opt).resp = none ∧
        (PluginsService.GetAll s opt).err = (s.addOptions "plugins" opt).2) ∧
      ((s.addOptions "plugins" opt).2 = none →
        requests (PluginsService.GetAll s opt).calls =
          [("GET", (s.addOptions "plugins" opt).1, none)] ∧
        ((PluginsService.GetAll s opt).resp, (PluginsService.GetAll s opt).err) =
          readReply s .plugins "GET" (s.addOptions "plugins" opt).1 Plugins.zero)) ∧
    (requests (PluginsService.GetSchema s name).calls =
        [("GET", "plugins/schema/" ++ name, none)] ∧
      ((PluginsService.GetSchema s name).resp, (PluginsService.GetSchema s name).err) =
        readReply s .schema "GET" ("plugins/schema/" ++ name) []) ∧
    (requests (PluginsService.Delete s api plugin.ID).calls =
        [("DELETE", "apis/" ++ api ++ "/plugins/" ++ plugin.ID, none)] ∧
      ((PluginsService.Delete s api plugin.ID).resp,
          (PluginsService.Delete s api plugin.ID).err) =
        writeReply s "DELETE" ("apis/" ++ api ++ "/plugins/" ++ plugin.ID) none) ∧
    (requests (CertificatesService.Get s certificateID).calls =
        [("GET", "certificates/" ++ certificateID, none)] ∧
      ((CertificatesService.Get s certificateID).resp,
          (CertificatesService.Get s certificateID).err) =
        readReply s .certificate "GET" ("certificates/" ++ certificateID)
          Certificate.zero) ∧
    (requests (CertificatesService.GetAll s).calls = [("GET", "certificates", none)] ∧
      ((CertificatesService.GetAll s).resp, (CertificatesService.GetAll s).err) =
        readReply s .certificates "GET" "certificates" Certificates.zero) ∧
    (requests (CertificatesService.Delete s certificateID).calls =
        [("DELETE", "certificates/" ++ certificateID, none)] ∧
      ((CertificatesService.Delete s certificateID).resp,
          (CertificatesService.Delete s certificateID).err) =
        writeReply s "DELETE" ("certificates/" ++ certificateID) none) ∧
    (requests (PluginsService.Post s anyPlugin).calls =
        [("POST", "plugins", some (.plugin anyPlugin))] ∧
      ((PluginsService.Post s anyPlugin).resp, (PluginsService.Post s anyPlugin).err) =
        writeReply s "POST" "plugins" (some (.plugin anyPlugin))) ∧
    (∃ ack, PluginsService.Patch s api (some plugin) = some ack ∧
      requests ack.calls =
        [("PATCH", "apis/" ++ api ++ "/plugins/" ++ plugin.ID,
          some (.plugin (some plugin)))] ∧
      (ack.resp, ack.err) =
        writeReply s "PATCH" ("apis/" ++ api ++ "/plugins/" ++ plugin.ID)
          (some (.plugin (some plugin)))) ∧
    (requests (CertificatesService.Post s certificate).calls =
        [("POST", "certificates", some (.certificate certificate))] ∧
      ((CertificatesService.Post s certificate).resp,
          (CertificatesService.Post s certificate).err) =
        writeReply s "POST" "certificates" (some (.certificate certificate))) ∧
    (requests (CertificatesService.Patch s certificate certificateID).calls =
        [("PATCH", "certificates/" ++ certificateID, some (.certificate certificate))] ∧
      ((CertificatesService.Patch s certificate certificateID).resp,
          (CertificatesService.Patch s certificate certificateID).err) =
        writeReply s "PATCH" ("certificates/" ++ certificateID)
          (some (.certificate certificate))) := by
  refine ⟨?_, ?_, ?_, ?_, ?_, ?_, ?_, ?_, ?_, ?_, ?_, ?_⟩
  · unfold PluginsService.Get readReply
    cases h1 : (s.NewRequest "GET" ("plugins/" ++ id) none).2 <;>
      cases h2 : (s.DoInto .plugin (s.NewRequest "GET" ("plugins/" ++ id) none).1
        Plugin.zero).2.2 <;>
      simp [Client.callNewRequest, Client.callDoInto, h1, h2, requests] <;>
      simp [Prod.ext_iff, *]
  · unfold PluginsService.GetEnabled readReply
    cases h1 : (s.NewRequest "GET" "plugins/enabled" none).2 <;>
      cases h2 : (s.DoInto .enabledPlugins (s.NewRequest "GET" "plugins/enabled" none).1
        EnabledPlugins.zero).2.2 <;>
      simp [Client.callNewRequest, Client.callDoInto, h1, h2, requests] <;>
      simp [Prod.ext_iff, *]
  · unfold PluginsService.GetAll readReply
    cases h0 : (s.addOptions "plugins" opt).2 <;>
      cases h1 : (s.NewRequest "GET" (s.addOptions "plugins" opt).1 none).2 <;>
      cases h2 : (s.DoInto .plugins (s.NewRequest "GET" (s.addOptions "plugins" opt).1 none).1
        Plugins.zero).2.2 <;>
      simp [Client.callNewRequest, Client.callDoInto, Client.callAddOptions, h0, h1, h2,
        requests] <;>
      simp [Prod.ext_iff, *]
  · unfold PluginsService.GetSchema readReply
    cases h1 : (s.NewRequest "GET" ("plugins/schema/" ++ name) none).2 <;>
      cases h2 : (s.DoInto .schema (s.NewRequest "GET" ("plugins/schema/" ++ name) none).1
        []).2.2 <;>
      simp [Client.callNewRequest, Client.callDoInto, h1, h2, requests] <;>
      simp [Prod.ext_iff, *]
  · unfold PluginsService.Delete writeReply
    cases h1 : (s.NewRequest "DELETE" ("apis/" ++ api ++ "/plugins/" ++ plugin.ID) none).2 <;>
      cases h2 : (s.DoNil
        (s.NewRequest "DELETE" ("apis/" ++ api ++ "/plugins/" ++ plugin.ID) none).1).2 <;>
      simp [Client.callNewRequest, Client.callDoNil, h1, h2, requests] <;>
      simp [Prod.ext_iff, *]
  · unfold CertificatesService.Get readReply
    cases h1 : (s.NewRequest "GET" ("certificates/" ++ certificateID) none).2 <;>
      cases h2 : (s.DoInto .certificate
        (s.NewRequest "GET" ("certificates/" ++ certificateID) none).1
        Certificate.zero).2.2 <;>
      simp [Client.callNewRequest, Client.callDoInto, h1, h2, requests] <;>
      simp [Prod.ext_iff, *]
  · unfold CertificatesService.GetAll readReply
    cases h1 : (s.NewRequest "GET" "certificates" none).2 <;>
      cases h2 : (s.DoInto .certificates (s.NewRequest "GET" "certificates" none).1
        Certificates.zero).2.2 <;>
      simp [Client.callNewRequest, Client.callDoInto, h1, h2, requests] <;>
      simp [Prod.ext_iff, *]
  · unfold CertificatesService.Delete writeReply
    cases h1 : (s.NewRequest "DELETE" ("certificates/" ++ certificateID) none).2 <;>
      cases h2 : (s.DoNil
        (s.NewRequest "DELETE" ("certificates/" ++ certificateID) none).1).2 <;>
      simp [Client.callNewRequest, Client.callDoNil, h1, h2, requests] <;>
      simp [Prod.ext_iff, *]
  · unfold PluginsService.Post writeReply
    cases h1 : (s.NewRequest "POST" "plugins" (some (.plugin anyPlugin))).2 <;>
      simp [Client.callNewRequest, Client.callDoNil, h1, requests]
  · unfold PluginsService.Patch writeReply
    cases h1 : (s.NewRequest "PATCH" ("apis/" ++ api ++ "/plugins/" ++ plugin.ID)
      (some (.plugin (some plugin)))).2 <;>
      simp [Client.callNewRequest, Client.callDoNil, h1, requests]
  · unfold CertificatesService.Post writeReply
    cases h1 : (s.NewRequest "POST" "certificates" (some (.certificate certificate))).2 <;>
      simp [Client.callNewRequest, Client.callDoNil, h1, requests]
  · unfold CertificatesService.Patch writeReply
    cases h1 : (s.NewRequest "PATCH" ("certificates/" ++ certificateID)
      (some (.certificate certificate))).2 <;>
      simp [Client.callNewRequest, Client.callDoNil, h1, requests]

/-- Witness for C9: GetAll on a client whose calls succeed builds one GET request
without body at the path addOptions returned and returns the answer of Do. -/
theorem request_bodies_witness :
    requests (PluginsService.GetAll okClient none).calls = [("GET", "plugins", none)] ∧
    ((PluginsService.GetAll okClient none).resp, (PluginsService.GetAll okClient none).err) =
      (some 200, none) :=
  (request_bodies okClient "p1" "acl" "a1" "c1" none aclOnApi none none).2.2.1.2.2 rfl

end Kong
